import Mathlib

/-!
Verification of the BLS compressed-point codec and hash-to-curve front end
(`py_ecc/bls/utils.py`) against its natural-language specification.

The source file is embedded shallowly:

* Python big integers become `ℕ`; Python's three-argument `pow(b, e, m)`
  (modular exponentiation) becomes the executable `powMod` below, which is
  proved equal to `b ^ e % m`.
* The base prime field `FQ` becomes `ZMod q`; the quadratic extension `FQ2`
  becomes the pair structure `Fq2` with the arithmetic of `re + im·i`,
  `i² = -1`, exactly as in the field adapter the source imports.
* Curve points are the spec's data model: an explicit infinity marker or an
  affine coordinate pair.  The source represents points projectively and
  uses the external `normalize` / `is_inf` adapter to reach affine form;
  the adapter is out of scope per the spec (§1, §6), so points are embedded
  already-normalized and `normalize` is the identity on coordinates.
* Python `raise` becomes `Except.error` with the source's message string.
-/

namespace BLSUtils

/-- Modelled from the spec: the base field modulus `q` of the BLS12-381
curve (the source imports it as `field_modulus` from the external curve
adapter; the value is the standard BLS12-381 prime). -/
def q : ℕ :=
  0x1a0111ea397fe69a4b1ba7b6434bacd764774b84f38512bf6730d2a0f6b0f6241eabfffeb153ffffb9feffffffffaaab

/-- `POW_2_381` from `constants.py` (not under `src/`): `2 ^ 381`. -/
def POW_2_381 : ℕ := 2 ^ 381

/-- `POW_2_382` from `constants.py` (not under `src/`): `2 ^ 382`. -/
def POW_2_382 : ℕ := 2 ^ 382

/-- `POW_2_383` from `constants.py` (not under `src/`): `2 ^ 383`. -/
def POW_2_383 : ℕ := 2 ^ 383

/-- Modelled from the spec: `FQ2_ORDER`, the multiplicative order
`q² - 1` of the quadratic extension field (from `constants.py`, which is
not under `src/`). -/
def FQ2_ORDER : ℕ := q ^ 2 - 1

/-- Fuel-structured binary modular exponentiation.  The fuel argument only
bounds the recursion depth; the computation stops as soon as the exponent
reaches zero. -/
def powModF (m : ℕ) : ℕ → ℕ → ℕ → ℕ
  | 0, _, _ => 1 % m
  | fuel + 1, bse, e =>
    if e = 0 then 1 % m
    else
      let r := powModF m fuel (bse * bse % m) (e / 2)
      if e % 2 = 1 then r * bse % m else r

/-- Python's `pow(b, e, m)`: modular exponentiation. -/
def powMod (bse e m : ℕ) : ℕ := powModF m (e + 1) bse e

theorem powModF_eq (m : ℕ) (hm : 0 < m) :
    ∀ fuel bse e, e < 2 ^ fuel → powModF m fuel bse e = bse ^ e % m := by
  intro fuel
  induction fuel with
  | zero =>
    intro bse e he
    norm_num at he
    subst he
    simp [powModF]
  | succ n ih =>
    intro bse e he
    by_cases h0 : e = 0
    · simp [powModF, h0]
    · have he2 : e / 2 < 2 ^ n := by
        have : e < 2 ^ n * 2 := by
          simpa [pow_succ] using he
        omega
      have hrec := ih (bse * bse % m) (e / 2) he2
      have hsq : (bse * bse % m) ^ (e / 2) % m = (bse * bse) ^ (e / 2) % m :=
        (Nat.pow_mod (bse * bse) (e / 2) m).symm
      rcases Nat.even_or_odd e with heven | hodd
      · have hm2 : e % 2 = 0 := Nat.even_iff.mp heven
        have hdiv : 2 * (e / 2) = e := by omega
        simp only [powModF, h0, if_false, hm2, one_ne_zero, if_neg,
          Nat.zero_ne_one]
        rw [hrec, hsq]
        congr 1
        rw [← pow_two, ← pow_mul, hdiv]
      · have hm2 : e % 2 = 1 := Nat.odd_iff.mp hodd
        have hdiv : 2 * (e / 2) + 1 = e := by omega
        simp only [powModF, h0, if_false, hm2, if_true]
        rw [hrec, hsq, Nat.mod_mul_mod]
        congr 1
        rw [← pow_two, ← pow_mul, ← pow_succ, hdiv]

theorem powMod_eq (bse e m : ℕ) (hm : 0 < m) : powMod bse e m = bse ^ e % m :=
  powModF_eq m hm (e + 1) bse e
    (lt_of_lt_of_le (Nat.lt_two_pow e)
      (Nat.pow_le_pow_right (by norm_num) (Nat.le_succ e)))

deriving instance DecidableEq for Except

/-- A G1 point in the spec's data model (§3): an explicit infinity marker
or an affine coordinate pair over the base field.  The source's projective
triples, together with the external `is_inf` / `normalize` adapter calls,
are embedded as this normalized form; `Z1` is `G1Point.inf`. -/
inductive G1Point where
  | inf : G1Point
  | fin (x y : ZMod q) : G1Point
deriving DecidableEq

/-- Modelled from the spec: the G1 curve coefficient `b = 4` of
`y² = x³ + 4` (external curve adapter constant). -/
def bG1 : ℕ := 4

/-- Modelled from the spec: the external adapter's G1 curve-membership
test, `y² = x³ + b` for finite points (infinity is on the curve). -/
def onCurveG1 : G1Point → Prop
  | .inf => True
  | .fin x y => y ^ 2 = x ^ 3 + (bG1 : ZMod q)

instance : DecidablePred onCurveG1 := by
  intro p
  cases p <;> simp [onCurveG1] <;> infer_instance

/-- `compress_G1` (utils.py:131).  For infinity: c_flag = b_flag = 1,
a_flag = x = 0.  Otherwise `x + a_flag·2^381 + 2^383` with
`a_flag = (y * 2) // q`. -/
def compress_G1 : G1Point → ℕ
  | .inf => POW_2_383 + POW_2_382
  | .fin x y => x.val + y.val * 2 / q * POW_2_381 + POW_2_383

/-- `decompress_G1` (utils.py:150).  `pow(·, ·, q)` is `powMod`; the
`FQ(x)`, `FQ(y)` constructor calls reduce modulo `q`, which is the
`ℕ`-to-`ZMod q` coercion. -/
def decompress_G1 (z : ℕ) : Except String G1Point :=
  let b_flag := z % POW_2_383 / POW_2_382
  if b_flag = 1 then .ok .inf
  else
    let x := z % POW_2_381
    let y := powMod ((x ^ 3 + bG1) % q) ((q + 1) / 4) q
    if powMod y 2 q ≠ (x ^ 3 + bG1) % q then
      .error "The given point is not on G1: y**2 = x**3 + b"
    else
      let a_flag := z % POW_2_382 / POW_2_381
      let y' := if y * 2 / q ≠ a_flag then q - y else y
      .ok (.fin (x : ZMod q) (y' : ZMod q))

/-- Python `int.to_bytes(len, "big")`: big-endian byte list of fixed
length. -/
def toBytesBE : ℕ → ℕ → List ℕ
  | 0, _ => []
  | len + 1, v => toBytesBE len (v / 256) ++ [v % 256]

/-- `eth_utils.big_endian_to_int`: big-endian byte-list to integer. -/
def big_endian_to_int (bs : List ℕ) : ℕ :=
  bs.foldl (fun acc d => acc * 256 + d) 0

/-- `G1_to_pubkey` (utils.py:175): 48-byte big-endian encoding of the
compression. -/
def G1_to_pubkey (pt : G1Point) : List ℕ :=
  toBytesBE 48 (compress_G1 pt)

/-- `pubkey_to_G1` (utils.py:180): big-endian decode then decompress.
The source performs no length check on `pubkey`. -/
def pubkey_to_G1 (pubkey : List ℕ) : Except String G1Point :=
  decompress_G1 (big_endian_to_int pubkey)

/-!  ## The quadratic extension field `FQ2`  -/

/-- Modelled from the spec: an `ExtensionFieldElement` is an immutable
pair `(re, im)` of base-field elements representing `re + im·i` with
`i² = -1` (the source's `FQ2` with coefficient list `[re, im]` over the
modulus polynomial `X² + 1`). -/
@[ext]
structure Fq2 where
  re : ZMod q
  im : ZMod q
deriving DecidableEq

instance : Zero Fq2 := ⟨⟨0, 0⟩⟩
instance : One Fq2 := ⟨⟨1, 0⟩⟩
instance : Add Fq2 := ⟨fun a b => ⟨a.re + b.re, a.im + b.im⟩⟩
instance : Neg Fq2 := ⟨fun a => ⟨-a.re, -a.im⟩⟩
instance : Mul Fq2 := ⟨fun a b => ⟨a.re * b.re - a.im * b.im, a.re * b.im + a.im * b.re⟩⟩
instance : Inhabited Fq2 := ⟨0⟩

/-- Modelled from the spec: the base-field inverse of the external field
adapter (the multiplicative inverse for units, `0 ↦ 0`), computed here by
Fermat exponentiation so that it is executable. -/
def zinvF (a : ZMod q) : ZMod q := (powMod a.val (q - 2) q : ℕ)

/-- Modelled from the spec: the extension-field inverse
`(a + b·i)⁻¹ = (a - b·i) / (a² + b²)` of the external field adapter
(the multiplicative inverse for units, `0 ↦ 0`). -/
def Fq2.inv (z : Fq2) : Fq2 :=
  let nrmInv := zinvF (z.re * z.re + z.im * z.im)
  ⟨z.re * nrmInv, -z.im * nrmInv⟩

instance : Inv Fq2 := ⟨Fq2.inv⟩

/-- The source's `FQ2.__truediv__`: multiplication by the inverse. -/
def Fq2.div (a bv : Fq2) : Fq2 := a * bv.inv

/-- Fuel-structured binary exponentiation on `Fq2` (the source's
`FQ2.__pow__`, square-and-multiply). -/
def fq2powF : ℕ → Fq2 → ℕ → Fq2
  | 0, _, _ => 1
  | fuel + 1, bse, e =>
    if e = 0 then 1
    else
      let r := fq2powF fuel (bse * bse) (e / 2)
      if e % 2 = 1 then r * bse else r

/-- `FQ2` exponentiation `value ** e`. -/
def fq2pow (bse : Fq2) (e : ℕ) : Fq2 := fq2powF (e + 1) bse e

/-- Modelled from the spec: `EIGTH_ROOTS_OF_UNITY` from `constants.py`
(not under `src/`): the 8 eighth roots of unity
`FQ2([1,1]) ** (FQ2_ORDER * k // 8)` for `k = 0, …, 7`, ordered so that
even-indexed entries are the "square" subset, each paired with its own
square root at half its index. -/
def EIGTH_ROOTS_OF_UNITY : List Fq2 :=
  (List.range 8).map fun k => fq2pow ⟨1, 1⟩ (FQ2_ORDER * k / 8)

/-- Python's `lst[::2]` slice: every second element, starting at index
0. -/
def sliceStep2 {α : Type} : List α → List α
  | [] => []
  | [a] => [a]
  | a :: _ :: rest => a :: sliceStep2 rest

/-- `modular_squareroot_in_FQ2` (utils.py:54).  Returns the square root
`y` of `value` with `y² = value` — preferring, of the two roots, the one
with the larger imaginary component, then the larger real component —
or `none` if no root exists. -/
def modular_squareroot_in_FQ2 (value : Fq2) : Option Fq2 :=
  let candidate_squareroot := fq2pow value ((FQ2_ORDER + 8) / 16)
  let check := Fq2.div (fq2pow candidate_squareroot 2) value
  if check ∈ sliceStep2 EIGTH_ROOTS_OF_UNITY then
    let x1 := Fq2.div candidate_squareroot
      (EIGTH_ROOTS_OF_UNITY.getD (EIGTH_ROOTS_OF_UNITY.indexOf check / 2) 1)
    let x2 := -x1
    if x2.im.val < x1.im.val ∨ (x1.im.val = x2.im.val ∧ x2.re.val < x1.re.val) then
      some x1
    else some x2
  else none

/-!  ## The G2 point codec  -/

/-- A G2 point in the spec's data model (§3): explicit infinity or an
affine pair over the extension field; `Z2` is `G2Point.inf`. -/
inductive G2Point where
  | inf : G2Point
  | fin (x y : Fq2) : G2Point
deriving DecidableEq

/-- Modelled from the spec: the twisted-curve coefficient
`b2 = FQ2([4, 4])` (external curve adapter constant). -/
def b2 : Fq2 := ⟨4, 4⟩

/-- Modelled from the spec: the external adapter's G2 curve-membership
test `y² = x³ + b2` for finite points (infinity is on the curve). -/
def onCurveG2 : G2Point → Prop
  | .inf => True
  | .fin x y => y * y = x * x * x + b2

instance : DecidablePred onCurveG2 := by
  intro p
  cases p <;> simp [onCurveG2] <;> infer_instance

/-- `compress_G2` (utils.py:189).  Fails for points off the twisted
curve; encodes infinity as `(2^383 + 2^382, 0)`; otherwise
`z1 = x_im + a_flag1·2^381 + 2^383`, `z2 = x_re` with `a_flag1` taken
from `y_im` when `y_im > 0` and from `y_re` otherwise. -/
def compress_G2 (pt : G2Point) : Except String (ℕ × ℕ) :=
  if ¬ onCurveG2 pt then
    .error "The given point is not on the twisted curve over FQ**2"
  else
    match pt with
    | .inf => .ok (POW_2_383 + POW_2_382, 0)
    | .fin x y =>
      let a_flag1 := if 0 < y.im.val then y.im.val * 2 / q else y.re.val * 2 / q
      .ok (x.im.val + a_flag1 * POW_2_381 + POW_2_383, x.re.val)

/-- The tail of `decompress_G2` from the square-root result on: `None`
raises; otherwise the root is flag-adjusted and the point is verified
(utils.py:237-251, factored out so that each case is its own equation). -/
def decompress_G2_aux (z1 : ℕ) (x : Fq2) : Option Fq2 → Except String G2Point
  | none => .error "Failed to find a modular squareroot"
  | some y0 =>
    let a_flag1 := z1 % POW_2_382 / POW_2_381
    let y := if (0 < y0.im.val ∧ y0.im.val * 2 / q ≠ a_flag1) ∨
                (y0.im.val = 0 ∧ y0.re.val * 2 / q ≠ a_flag1) then -y0 else y0
    if ¬ onCurveG2 (.fin x y) then
      .error "The given point is not on the twisted curve over FQ**2"
    else
      .ok (.fin x y)

/-- `decompress_G2` (utils.py:221). -/
def decompress_G2 (p : ℕ × ℕ) : Except String G2Point :=
  let z1 := p.1
  let z2 := p.2
  let b_flag1 := z1 % POW_2_383 / POW_2_382
  if b_flag1 = 1 then .ok .inf
  else
    let x1 := z1 % POW_2_381
    let x2 := z2
    let x : Fq2 := ⟨(x2 : ZMod q), (x1 : ZMod q)⟩
    decompress_G2_aux z1 x (modular_squareroot_in_FQ2 (fq2pow x 3 + b2))

/-- `G2_to_signature` (utils.py:254): compress, then concatenate the two
48-byte big-endian halves.  A compression failure propagates. -/
def G2_to_signature (pt : G2Point) : Except String (List ℕ) :=
  match compress_G2 pt with
  | .error e => .error e
  | .ok (z1, z2) => .ok (toBytesBE 48 z1 ++ toBytesBE 48 z2)

/-- `signature_to_G2` (utils.py:261): split at byte 48 (Python slicing
`signature[:48]` / `signature[48:]`, with no length check), big-endian
decode each half, then decompress. -/
def signature_to_G2 (signature : List ℕ) : Except String G2Point :=
  decompress_G2
    (big_endian_to_int (signature.take 48), big_endian_to_int (signature.drop 48))

/-!  ## Hash to curve

The KDF primitives (`hkdf_extract`, `hkdf_expand` from `hash.py`), the
domain separation tag and output length from `constants.py`, and the
curve-adapter maps (`optimized_swu_G2`, `iso_map_G2`, `add`,
`multiply_clear_cofactor_G2`) are external collaborators (spec §6) with
sources outside `src/`; they are embedded as parameters, bundled in
`HashExt`.  The abstract type `P` stands for the adapter's
(projective) G2 point representation. -/

structure HashExt (P : Type) where
  hkdf_extract : List ℕ → List ℕ → List ℕ
  hkdf_expand : List ℕ → List ℕ → ℕ → List ℕ
  DST : List ℕ
  HASH_TO_G2_L : ℕ
  optimized_swu_G2 : Fq2 → Fq2 × Fq2 × Fq2
  iso_map_G2 : Fq2 → Fq2 → Fq2 → P
  add : P → P → P
  multiply_clear_cofactor_G2 : P → P

/-- `hash_to_base_FQ2` (utils.py:83).  `b'H2C'` is the byte list
`[72, 50, 67]`; the loop over `i ∈ {1, 2}` is unrolled. -/
def hash_to_base_FQ2 {P : Type} (E : HashExt P) (message_hash : List ℕ)
    (ctr : ℕ) : Fq2 :=
  let m_prime := E.hkdf_extract E.DST message_hash
  let t1 := E.hkdf_expand m_prime ([72, 50, 67] ++ [ctr] ++ [1]) E.HASH_TO_G2_L
  let t2 := E.hkdf_expand m_prime ([72, 50, 67] ++ [ctr] ++ [2]) E.HASH_TO_G2_L
  ⟨(big_endian_to_int t1 : ZMod q), (big_endian_to_int t2 : ZMod q)⟩

/-- `map_to_curve_G2` (utils.py:102): the simplified SWU map first, the
3-isogeny map second. -/
def map_to_curve_G2 {P : Type} (E : HashExt P) (u : Fq2) : P :=
  match E.optimized_swu_G2 u with
  | (x, y, z) => E.iso_map_G2 x y z

/-- `clear_cofactor_G2` (utils.py:116). -/
def clear_cofactor_G2 {P : Type} (E : HashExt P) (p : P) : P :=
  E.multiply_clear_cofactor_G2 p

/-- `hash_to_G2` (utils.py:73). -/
def hash_to_G2 {P : Type} (E : HashExt P) (message_hash : List ℕ) : P :=
  let u0 := hash_to_base_FQ2 E message_hash 0
  let u1 := hash_to_base_FQ2 E message_hash 1
  let q0 := map_to_curve_G2 E u0
  let q1 := map_to_curve_G2 E u1
  let r := E.add q0 q1
  let p := clear_cofactor_G2 E r
  p

/-- The hash-to-curve pipeline exactly as the spec words it (§4.5),
written independently of the source-order definitions above: expansion
info bytes `"H2C" ‖ I2OSP(ctr,1) ‖ I2OSP(i,1)`, SWU-then-isogeny
mapping, external addition, then external cofactor clearing. -/
def hashToG2Spec {P : Type} (E : HashExt P) (message_hash : List ℕ) : P :=
  let hashToBase : ℕ → Fq2 := fun ctr =>
    let m_prime := E.hkdf_extract E.DST message_hash
    ⟨(big_endian_to_int (E.hkdf_expand m_prime [72, 50, 67, ctr, 1] E.HASH_TO_G2_L) : ZMod q),
     (big_endian_to_int (E.hkdf_expand m_prime [72, 50, 67, ctr, 2] E.HASH_TO_G2_L) : ZMod q)⟩
  let mapToCurve : Fq2 → P := fun u =>
    E.iso_map_G2 (E.optimized_swu_G2 u).1 (E.optimized_swu_G2 u).2.1
      (E.optimized_swu_G2 u).2.2
  E.multiply_clear_cofactor_G2
    (E.add (mapToCurve (hashToBase 0)) (mapToCurve (hashToBase 1)))

/-!  ## Primality of the field modulus

`q` is certified prime through Lucas certificates (`lucas_primality`),
with the recursion on the prime factors of `p - 1` discharged bottom-up.
All modular exponentiations go through the executable `powMod`. -/

theorem powMod_lt (bse e m : ℕ) (hm : 0 < m) : powMod bse e m < m := by
  unfold powMod
  generalize e + 1 = fuel
  induction fuel generalizing bse e with
  | zero => simpa [powModF] using Nat.mod_lt 1 hm
  | succ n ih =>
    by_cases h0 : e = 0
    · simpa [powModF, h0] using Nat.mod_lt 1 hm
    · by_cases h1 : e % 2 = 1 <;>
        simp only [powModF, h0, if_false, h1, if_true] <;>
        first
          | exact Nat.mod_lt _ hm
          | exact ih _ _

/-- A Lucas primality certificate: a witness `a` and the prime
factorization (with multiplicity) of `p - 1`. -/
def lucasCert (p a : ℕ) (fs : List ℕ) : Bool :=
  (fs.foldl (· * ·) 1 == p - 1) &&
    (powMod a (p - 1) p == 1) &&
    fs.all fun r => powMod a ((p - 1) / r) p != 1

theorem prime_of_lucasCert (p a : ℕ) (fs : List ℕ) (hp : 2 ≤ p)
    (hfs : ∀ r ∈ fs, r.Prime) (h : lucasCert p a fs = true) : p.Prime := by
  have hp0 : 0 < p := by omega
  simp only [lucasCert, Bool.and_eq_true, beq_iff_eq, List.all_eq_true,
    bne_iff_ne, ne_eq] at h
  obtain ⟨⟨hprod, hfermat⟩, hroots⟩ := h
  have hcast : ∀ e : ℕ, ((a : ZMod p)) ^ e = ((powMod a e p : ℕ) : ZMod p) := by
    intro e
    rw [powMod_eq a e p hp0, ZMod.natCast_mod, Nat.cast_pow]
  refine lucas_primality p (a : ZMod p) ?_ ?_
  · rw [hcast, hfermat, Nat.cast_one]
  · intro r hr hdvd
    have hrfs : r ∈ fs := by
      have hprod' : (p - 1) = fs.prod := by
        rw [← hprod, List.prod_eq_foldl]
      rw [hprod'] at hdvd
      rcases (hr.prime.dvd_prod_iff).mp hdvd with ⟨f, hf, hrf⟩
      rcases (Nat.prime_dvd_prime_iff_eq hr (hfs f hf)).mp hrf with rfl
      exact hf
    intro hone
    apply hroots r hrfs
    have hlt : powMod a ((p - 1) / r) p < p := powMod_lt _ _ _ hp0
    have h1lt : (1 : ℕ) < p := by omega
    have := hcast ((p - 1) / r)
    rw [hone] at this
    have : ((1 : ℕ) : ZMod p) = ((powMod a ((p - 1) / r) p : ℕ) : ZMod p) := by
      simpa using this
    have := (ZMod.natCast_eq_natCast_iff' _ _ _).mp this
    rw [Nat.mod_eq_of_lt h1lt, Nat.mod_eq_of_lt hlt] at this
    exact this.symm

set_option maxRecDepth 100000

theorem prime_9272813673901 : Nat.Prime 9272813673901 :=
  prime_of_lucasCert 9272813673901 2 [2, 2, 3, 5, 5, 7, 7577, 582767] (by norm_num)
    (by
      intro r hr
      fin_cases hr <;>
        norm_num)
    (by decide)

theorem prime_1928745244171409 : Nat.Prime 1928745244171409 :=
  prime_of_lucasCert 1928745244171409 3 [2, 2, 2, 2, 13, 9272813673901] (by norm_num)
    (by
      intro r hr
      fin_cases hr <;>
        first
      | exact prime_9272813673901
      | norm_num)
    (by decide)

theorem prime_7259797099061183477 : Nat.Prime 7259797099061183477 :=
  prime_of_lucasCert 7259797099061183477 2 [2, 2, 941, 1928745244171409] (by norm_num)
    (by
      intro r hr
      fin_cases hr <;>
        first
      | exact prime_1928745244171409
      | norm_num)
    (by decide)

theorem prime_2584487767265781317813 : Nat.Prime 2584487767265781317813 :=
  prime_of_lucasCert 2584487767265781317813 2 [2, 2, 89, 7259797099061183477] (by norm_num)
    (by
      intro r hr
      fin_cases hr <;>
        first
      | exact prime_7259797099061183477
      | norm_num)
    (by decide)

theorem prime_475709467 : Nat.Prime 475709467 :=
  prime_of_lucasCert 475709467 2 [2, 3, 47, 1686913] (by norm_num)
    (by
      intro r hr
      fin_cases hr <;>
        norm_num)
    (by decide)

theorem prime_927093389 : Nat.Prime 927093389 :=
  prime_of_lucasCert 927093389 3 [2, 2, 13, 409, 43591] (by norm_num)
    (by
      intro r hr
      fin_cases hr <;>
        norm_num)
    (by decide)

theorem prime_64881703735777 : Nat.Prime 64881703735777 :=
  prime_of_lucasCert 64881703735777 5 [2, 2, 2, 2, 2, 3, 3, 3, 3, 3, 3, 3, 927093389] (by norm_num)
    (by
      intro r hr
      fin_cases hr <;>
        first
      | exact prime_927093389
      | norm_num)
    (by decide)

theorem prime_92691255082156974996979 : Nat.Prime 92691255082156974996979 :=
  prime_of_lucasCert 92691255082156974996979 3 [2, 3, 31, 467, 16447, 64881703735777] (by norm_num)
    (by
      intro r hr
      fin_cases hr <;>
        first
      | exact prime_64881703735777
      | norm_num)
    (by decide)

theorem prime_51376543 : Nat.Prime 51376543 :=
  prime_of_lucasCert 51376543 3 [2, 3, 7, 151, 8101] (by norm_num)
    (by
      intro r hr
      fin_cases hr <;>
        norm_num)
    (by decide)

theorem prime_43670061551 : Nat.Prime 43670061551 :=
  prime_of_lucasCert 43670061551 7 [2, 5, 5, 17, 51376543] (by norm_num)
    (by
      intro r hr
      fin_cases hr <;>
        first
      | exact prime_51376543
      | norm_num)
    (by decide)

theorem prime_13090036741 : Nat.Prime 13090036741 :=
  prime_of_lucasCert 13090036741 10 [2, 2, 3, 5, 11, 47, 421987] (by norm_num)
    (by
      intro r hr
      fin_cases hr <;>
        norm_num)
    (by decide)

theorem prime_3819663927398918131021 : Nat.Prime 3819663927398918131021 :=
  prime_of_lucasCert 3819663927398918131021 6 [2, 2, 3, 3, 5, 19, 113, 755057, 13090036741] (by norm_num)
    (by
      intro r hr
      fin_cases hr <;>
        first
      | exact prime_13090036741
      | norm_num)
    (by decide)

theorem prime_1125266252156850182658904441386709967 : Nat.Prime 1125266252156850182658904441386709967 :=
  prime_of_lucasCert 1125266252156850182658904441386709967 5 [2, 3373, 43670061551, 3819663927398918131021] (by norm_num)
    (by
      intro r hr
      fin_cases hr <;>
        first
      | exact prime_43670061551
      | exact prime_3819663927398918131021
      | norm_num)
    (by decide)

theorem prime_15778400344354997994418419698270088123916926905054652752758194827714659 : Nat.Prime 15778400344354997994418419698270088123916926905054652752758194827714659 :=
  prime_of_lucasCert 15778400344354997994418419698270088123916926905054652752758194827714659 2 [2, 3, 53, 475709467, 92691255082156974996979, 1125266252156850182658904441386709967] (by norm_num)
    (by
      intro r hr
      fin_cases hr <;>
        first
      | exact prime_475709467
      | exact prime_92691255082156974996979
      | exact prime_1125266252156850182658904441386709967
      | norm_num)
    (by decide)

theorem prime_52437899 : Nat.Prime 52437899 :=
  prime_of_lucasCert 52437899 2 [2, 43, 609743] (by norm_num)
    (by
      intro r hr
      fin_cases hr <;>
        norm_num)
    (by decide)

/-- The BLS12-381 base field modulus is prime. -/
theorem q_prime : Nat.Prime q :=
  prime_of_lucasCert q 2 [2, 3, 3, 11, 23, 47, 10177, 859267, 52437899, 2584487767265781317813, 15778400344354997994418419698270088123916926905054652752758194827714659] (by norm_num [q])
    (by
      intro r hr
      fin_cases hr <;>
        first
      | exact prime_52437899
      | exact prime_2584487767265781317813
      | exact prime_15778400344354997994418419698270088123916926905054652752758194827714659
      | norm_num)
    (by decide)

instance : Fact (Nat.Prime q) := ⟨q_prime⟩

instance : NeZero q := ⟨q_prime.ne_zero⟩

instance : Fact (1 < q) := ⟨q_prime.one_lt⟩

/-!  ## Field structure on `Fq2`

`q ≡ 3 mod 4`, so `-1` is a non-square in `ZMod q` and
`X² + 1` is irreducible: the pair arithmetic above is a field. -/

theorem Fq2.zero_re : (0 : Fq2).re = 0 := rfl

theorem Fq2.zero_im : (0 : Fq2).im = 0 := rfl

theorem Fq2.one_re : (1 : Fq2).re = 1 := rfl

theorem Fq2.one_im : (1 : Fq2).im = 0 := rfl

theorem Fq2.add_re (a b : Fq2) : (a + b).re = a.re + b.re := rfl

theorem Fq2.add_im (a b : Fq2) : (a + b).im = a.im + b.im := rfl

theorem Fq2.neg_re (a : Fq2) : (-a).re = -a.re := rfl

theorem Fq2.neg_im (a : Fq2) : (-a).im = -a.im := rfl

theorem Fq2.mul_re (a b : Fq2) : (a * b).re = a.re * b.re - a.im * b.im := rfl

theorem Fq2.mul_im (a b : Fq2) : (a * b).im = a.re * b.im + a.im * b.re := rfl

theorem Fq2.mk_eq (a b : Fq2) : a = b ↔ a.re = b.re ∧ a.im = b.im :=
  ⟨fun h => ⟨congrArg Fq2.re h, congrArg Fq2.im h⟩, fun ⟨h1, h2⟩ => Fq2.ext h1 h2⟩

instance : CommRing Fq2 where
  add := (· + ·)
  zero := 0
  neg := Neg.neg
  mul := (· * ·)
  one := 1
  nsmul := nsmulRec
  zsmul := zsmulRec
  add_assoc a b c := by ext <;> simp [Fq2.add_re, Fq2.add_im, add_assoc]
  zero_add a := by ext <;> simp [Fq2.add_re, Fq2.add_im, Fq2.zero_re, Fq2.zero_im]
  add_zero a := by ext <;> simp [Fq2.add_re, Fq2.add_im, Fq2.zero_re, Fq2.zero_im]
  add_comm a b := by ext <;> simp [Fq2.add_re, Fq2.add_im, add_comm]
  neg_add_cancel a := by
    ext <;> simp [Fq2.add_re, Fq2.add_im, Fq2.neg_re, Fq2.neg_im, Fq2.zero_re, Fq2.zero_im]
  mul_assoc a b c := by
    ext <;> simp [Fq2.mul_re, Fq2.mul_im] <;> ring
  one_mul a := by ext <;> simp [Fq2.mul_re, Fq2.mul_im, Fq2.one_re, Fq2.one_im]
  mul_one a := by ext <;> simp [Fq2.mul_re, Fq2.mul_im, Fq2.one_re, Fq2.one_im]
  left_distrib a b c := by
    ext <;> simp [Fq2.mul_re, Fq2.mul_im, Fq2.add_re, Fq2.add_im] <;> ring
  right_distrib a b c := by
    ext <;> simp [Fq2.mul_re, Fq2.mul_im, Fq2.add_re, Fq2.add_im] <;> ring
  zero_mul a := by
    ext <;> simp [Fq2.mul_re, Fq2.mul_im, Fq2.zero_re, Fq2.zero_im]
  mul_zero a := by
    ext <;> simp [Fq2.mul_re, Fq2.mul_im, Fq2.zero_re, Fq2.zero_im]
  mul_comm a b := by
    ext <;> simp [Fq2.mul_re, Fq2.mul_im] <;> ring

instance : Nontrivial Fq2 :=
  ⟨⟨0, 1, fun h => zero_ne_one (congrArg Fq2.re h)⟩⟩

theorem zinvF_zero : zinvF 0 = (0 : ZMod q) := by decide

theorem zinvF_eq (t : ZMod q) : zinvF t = t⁻¹ := by
  by_cases ht : t = 0
  · subst ht
    rw [inv_zero, zinvF_zero]
  · have hfermat : t ^ (q - 1) = 1 := ZMod.pow_card_sub_one_eq_one ht
    have hsucc : q - 1 = (q - 2) + 1 := by
      have := q_prime.two_le
      omega
    have hmul : t * t ^ (q - 2) = 1 := by
      rw [← pow_succ', ← hsucc, hfermat]
    have : t ^ (q - 2) = t⁻¹ := by
      field_simp
      rw [mul_comm] at hmul
      rw [hmul]
    rw [← this]
    simp only [zinvF]
    rw [powMod_eq _ _ _ q_prime.pos, ZMod.natCast_mod, Nat.cast_pow,
      ZMod.natCast_val, ZMod.cast_id]

theorem fq2_norm_ne_zero (a : Fq2) (h : a ≠ 0) :
    a.re * a.re + a.im * a.im ≠ (0 : ZMod q) := by
  intro h0
  by_cases him : a.im = 0
  · rw [him, mul_zero, add_zero, mul_self_eq_zero] at h0
    exact h (Fq2.ext h0 him)
  · have hsquare : IsSquare (-1 : ZMod q) := by
      refine ⟨a.re * a.im⁻¹, ?_⟩
      have hre2 : a.re * a.re = -(a.im * a.im) := by
        rw [add_eq_zero_iff_eq_neg] at h0
        exact h0
      field_simp
      linear_combination -hre2
    have h43 : q % 4 = 3 := by decide
    exact (ZMod.exists_sq_eq_neg_one_iff.mp hsquare) h43

theorem fq2_mul_inv_cancel (a : Fq2) (h : a ≠ 0) : a * a⁻¹ = 1 := by
  have hN := fq2_norm_ne_zero a h
  have hstep : a * Fq2.inv a =
      ⟨(a.re * a.re + a.im * a.im) * (a.re * a.re + a.im * a.im)⁻¹, 0⟩ := by
    simp only [Fq2.inv, zinvF_eq]
    ext
    · simp only [Fq2.mul_re]
      ring
    · simp only [Fq2.mul_im]
      ring
  show a * Fq2.inv a = 1
  rw [hstep, mul_inv_cancel₀ hN]
  rfl

instance : Field Fq2 where
  mul_inv_cancel := fq2_mul_inv_cancel
  inv_zero := by
    show Fq2.inv 0 = 0
    simp only [Fq2.inv]
    ext <;> simp [Fq2.zero_re, Fq2.zero_im]
  nnqsmul := _
  nnqsmul_def := fun _ _ => rfl
  qsmul := _
  qsmul_def := fun _ _ => rfl

/-- `Fq2` is in bijection with pairs of base-field elements. -/
def fq2EquivProd : Fq2 ≃ ZMod q × ZMod q where
  toFun z := (z.re, z.im)
  invFun p := ⟨p.1, p.2⟩
  left_inv _ := rfl
  right_inv _ := rfl

instance : Fintype Fq2 := Fintype.ofEquiv _ fq2EquivProd.symm

theorem card_fq2 : Fintype.card Fq2 = q ^ 2 := by
  rw [Fintype.card_congr fq2EquivProd, Fintype.card_prod, ZMod.card, sq]

/-- Fermat–Euler in the extension field: every nonzero element has
multiplicative order dividing `FQ2_ORDER = q² - 1`. -/
theorem fq2_pow_order_eq_one (a : Fq2) (h : a ≠ 0) : a ^ (q ^ 2 - 1) = 1 := by
  have := FiniteField.pow_card_sub_one_eq_one a h
  rwa [card_fq2] at this

/-!  ## Bit-field arithmetic for the compressed encodings  -/

theorem pow382_eq : POW_2_382 = 2 * POW_2_381 := by norm_num [POW_2_381, POW_2_382]

theorem pow383_eq : POW_2_383 = 4 * POW_2_381 := by norm_num [POW_2_381, POW_2_383]

theorem q_lt_pow381 : q < POW_2_381 := by decide

theorem q_pos : 0 < q := q_prime.pos

/-- The three bit-field reads of `decompress` applied to a compressed
finite-point value `xv + a·B + 4·B` (with `B = 2^381`): `b_flag = 0`,
`x = xv`, `a_flag = a`. -/
theorem flag_decomp (B xv a : ℕ) (hB : 0 < B) (hx : xv < B) (ha : a ≤ 1) :
    (xv + a * B + 4 * B) % (4 * B) / (2 * B) = 0 ∧
    (xv + a * B + 4 * B) % B = xv ∧
    (xv + a * B + 4 * B) % (2 * B) / B = a := by
  have hlt2 : xv + a * B < 2 * B := by
    have : a * B ≤ B := by
      calc a * B ≤ 1 * B := Nat.mul_le_mul_right B ha
      _ = B := one_mul B
    omega
  refine ⟨?_, ?_, ?_⟩
  · have h1 : (xv + a * B + 4 * B) % (4 * B) = xv + a * B := by
      have : (xv + a * B + 1 * (4 * B)) % (4 * B) = (xv + a * B) % (4 * B) :=
        Nat.add_mul_mod_self_right _ 1 _
      rw [one_mul] at this
      rw [this, Nat.mod_eq_of_lt (by omega)]
    rw [h1, Nat.div_eq_of_lt hlt2]
  · have h1 : xv + a * B + 4 * B = xv + (a + 4) * B := by ring
    rw [h1, Nat.add_mul_mod_self_right, Nat.mod_eq_of_lt hx]
  · have h1 : (xv + a * B + 4 * B) % (2 * B) = xv + a * B := by
      have : (xv + a * B + 2 * (2 * B)) % (2 * B) = (xv + a * B) % (2 * B) :=
        Nat.add_mul_mod_self_right _ 2 _
      have h2 : xv + a * B + 4 * B = xv + a * B + 2 * (2 * B) := by ring
      rw [h2, this, Nat.mod_eq_of_lt hlt2]
    rw [h1, Nat.add_mul_div_right _ _ hB, Nat.div_eq_of_lt hx, Nat.zero_add]

/-- The `a_flag` of a field value, `⌊2·v/m⌋`, is a bit, and negation
(`v ↦ m - v`, for `0 < v < m`, `m` odd) flips it. -/
theorem flag_flip (m Y : ℕ) (hodd : m % 2 = 1) (h0 : 0 < Y) (hY : Y < m) :
    (m - Y) * 2 / m = 1 - Y * 2 / m ∧ Y * 2 / m ≤ 1 := by
  have hm : 0 < m := by omega
  have hb : Y * 2 / m ≤ 1 := by
    have : Y * 2 / m < 2 := (Nat.div_lt_iff_lt_mul hm).mpr (by omega)
    omega
  refine ⟨?_, hb⟩
  rcases Nat.lt_or_ge (Y * 2) m with hlt | hge
  · have h1 : Y * 2 / m = 0 := Nat.div_eq_of_lt hlt
    have h2 : (m - Y) * 2 / m = 1 := by
      have hlow : 1 * m ≤ (m - Y) * 2 := by omega
      have hhigh : (m - Y) * 2 < (1 + 1) * m := by omega
      exact Nat.div_eq_of_lt_le hlow hhigh
    rw [h1, h2]
  · have hne : Y * 2 ≠ m := by omega
    have hgt : m < Y * 2 := by omega
    have h1 : Y * 2 / m = 1 := by
      have hlow : 1 * m ≤ Y * 2 := by omega
      have hhigh : Y * 2 < (1 + 1) * m := by omega
      exact Nat.div_eq_of_lt_le hlow hhigh
    have h2 : (m - Y) * 2 / m = 0 := Nat.div_eq_of_lt (by omega)
    rw [h1, h2]

/-!  ## G1 decompression: the square-root step  -/

theorem val_cast_self (a : ZMod q) : ((a.val : ℕ) : ZMod q) = a := by
  rw [ZMod.natCast_val, ZMod.cast_id]

/-- The `(x³+b)^((q+1)/4)` candidate of `decompress_G1` squares back to
`y²` whenever `y² = x³ + b`: the Tonelli shortcut for `q ≡ 3 mod 4`. -/
theorem G1_sqrt (x y : ZMod q) (h : y ^ 2 = x ^ 3 + (bG1 : ZMod q)) :
    ((powMod ((x.val ^ 3 + bG1) % q) ((q + 1) / 4) q : ℕ) : ZMod q) ^ 2 = y ^ 2 := by
  have hcast : ((powMod ((x.val ^ 3 + bG1) % q) ((q + 1) / 4) q : ℕ) : ZMod q) =
      (x ^ 3 + (bG1 : ZMod q)) ^ ((q + 1) / 4) := by
    rw [powMod_eq _ _ _ q_pos, ZMod.natCast_mod, Nat.cast_pow, ZMod.natCast_mod]
    push_cast
    rw [ZMod.natCast_val, ZMod.cast_id]
  rw [hcast, ← h]
  have hq4 : (q + 1) % 4 = 0 := by decide
  have hq2 : (q + 1) % 2 = 0 := by omega
  have h42 : (q + 1) / 4 * 2 = (q + 1) / 2 := by omega
  rw [← pow_mul, h42]
  by_cases hy : y = 0
  · subst hy
    have h20 : (q + 1) / 2 ≠ 0 := by
      have := q_prime.two_le
      omega
    have h02 : ((0 : ZMod q) ^ 2) = 0 := by norm_num
    rw [h02, zero_pow h20]
  · have h22 : 2 * ((q + 1) / 2) = q + 1 := by omega
    rw [← pow_mul, h22]
    have hfermat : y ^ (q - 1) = 1 := ZMod.pow_card_sub_one_eq_one hy
    have hsplit : q + 1 = 2 + (q - 1) := by
      have := q_prime.two_le
      omega
    rw [hsplit, pow_add, hfermat, mul_one]

/-- G1 round trip: decompressing the compression of any point on the
curve returns exactly that point. -/
theorem decompress_compress_G1 (p : G1Point) (h : onCurveG1 p) :
    decompress_G1 (compress_G1 p) = .ok p := by
  cases p with
  | inf => decide
  | fin x y =>
    simp only [onCurveG1] at h
    have hxlt : x.val < POW_2_381 := lt_trans (ZMod.val_lt x) q_lt_pow381
    have hYlt : y.val < q := ZMod.val_lt y
    have ha_le : y.val * 2 / q ≤ 1 := by
      have : y.val * 2 / q < 2 := (Nat.div_lt_iff_lt_mul q_pos).mpr (by omega)
      omega
    obtain ⟨hb, hx', ha'⟩ :=
      flag_decomp POW_2_381 x.val (y.val * 2 / q) (by norm_num [POW_2_381]) hxlt ha_le
    have hsq := G1_sqrt x y h
    have hyclt : powMod ((x.val ^ 3 + bG1) % q) ((q + 1) / 4) q < q :=
      powMod_lt _ _ _ q_pos
    have hcheck : powMod (powMod ((x.val ^ 3 + bG1) % q) ((q + 1) / 4) q) 2 q =
        (x.val ^ 3 + bG1) % q := by
      rw [powMod_eq _ _ _ q_pos]
      have hzmod : ((powMod ((x.val ^ 3 + bG1) % q) ((q + 1) / 4) q ^ 2 : ℕ) : ZMod q) =
          ((x.val ^ 3 + bG1 : ℕ) : ZMod q) := by
        push_cast
        rw [hsq, h]
        push_cast
        rw [val_cast_self]
      exact (ZMod.natCast_eq_natCast_iff _ _ _).mp hzmod
    simp only [compress_G1, decompress_G1, pow382_eq, pow383_eq]
    rw [hb, hx', hcheck]
    rw [if_neg (by norm_num : ¬(0 : ℕ) = 1), if_neg (by simp)]
    rw [ha']
    set yc := powMod ((x.val ^ 3 + bG1) % q) ((q + 1) / 4) q with hyc_def
    have hycval : ((yc : ℕ) : ZMod q).val = yc := ZMod.val_cast_of_lt hyclt
    have hroots : ((yc : ℕ) : ZMod q) = y ∨ ((yc : ℕ) : ZMod q) = -y := by
      have hfac : (((yc : ℕ) : ZMod q) - y) * (((yc : ℕ) : ZMod q) + y) = 0 := by
        have expand : (((yc : ℕ) : ZMod q) - y) * (((yc : ℕ) : ZMod q) + y) =
            ((yc : ℕ) : ZMod q) ^ 2 - y ^ 2 := by ring
        rw [expand, hsq, sub_self]
      rcases mul_eq_zero.mp hfac with h1 | h1
      · exact Or.inl (sub_eq_zero.mp h1)
      · exact Or.inr (eq_neg_of_add_eq_zero_left h1)
    by_cases hy0 : y = 0
    · have hyc0 : yc = 0 := by
        have hz : ((yc : ℕ) : ZMod q) = 0 := by
          have hz2 : ((yc : ℕ) : ZMod q) ^ 2 = 0 := by
            rw [hsq, hy0]
            ring
          exact pow_eq_zero_iff (by norm_num) |>.mp hz2
        rw [← hycval, hz, ZMod.val_zero]
      subst hy0
      rw [hyc0]
      simp only [ZMod.val_zero, Nat.zero_mul, Nat.zero_div, Nat.cast_zero]
      rw [if_neg (by simp), val_cast_self]
      rfl
    · have hY0 : 0 < y.val := by
        rcases Nat.eq_zero_or_pos y.val with h0 | h0
        · exact absurd ((ZMod.val_eq_zero y).mp h0) hy0
        · exact h0
      obtain ⟨hflip, _⟩ := flag_flip q y.val (by decide) hY0 hYlt
      rcases hroots with hcy | hcy
      · have hycY : yc = y.val := by rw [← hycval, hcy]
        rw [hycY, if_neg (by simp), val_cast_self, val_cast_self]
      · have hycY : yc = q - y.val := by
          rw [← hycval, hcy]
          haveI : NeZero y := ⟨hy0⟩
          exact ZMod.val_neg_of_ne_zero y
        have hne : (yc * 2 / q) ≠ y.val * 2 / q := by
          rw [hycY, hflip]
          omega
        rw [if_pos hne]
        have hqsub : q - yc = y.val := by omega
        rw [hqsub, val_cast_self, val_cast_self]

/-!  ## Byte-level round trip  -/

theorem big_endian_to_int_append (xs : List ℕ) (d : ℕ) :
    big_endian_to_int (xs ++ [d]) = big_endian_to_int xs * 256 + d := by
  simp [big_endian_to_int, List.foldl_append]

theorem big_endian_toBytesBE (len v : ℕ) (h : v < 256 ^ len) :
    big_endian_to_int (toBytesBE len v) = v := by
  induction len generalizing v with
  | zero =>
    simp only [pow_zero, Nat.lt_one_iff] at h
    subst h
    simp [toBytesBE, big_endian_to_int]
  | succ n ih =>
    have hdiv : v / 256 < 256 ^ n := by
      rw [Nat.div_lt_iff_lt_mul (by norm_num)]
      calc v < 256 ^ (n + 1) := h
      _ = 256 ^ n * 256 := by ring
    simp only [toBytesBE, big_endian_to_int_append, ih _ hdiv]
    omega

theorem compress_G1_lt (p : G1Point) : compress_G1 p < 256 ^ 48 := by
  have h48 : (256 : ℕ) ^ 48 = 8 * POW_2_381 := by norm_num [POW_2_381]
  cases p with
  | inf =>
    simp only [compress_G1, pow382_eq, pow383_eq, h48]
    omega
  | fin x y =>
    have hxlt : x.val < POW_2_381 := lt_trans (ZMod.val_lt x) q_lt_pow381
    have ha_le : y.val * 2 / q ≤ 1 := by
      have hYlt : y.val < q := ZMod.val_lt y
      have : y.val * 2 / q < 2 := (Nat.div_lt_iff_lt_mul q_pos).mpr (by omega)
      omega
    simp only [compress_G1, pow383_eq, h48]
    have : y.val * 2 / q * POW_2_381 ≤ 1 * POW_2_381 :=
      Nat.mul_le_mul_right _ ha_le
    omega

/-- Decoding the canonical byte encoding of an on-curve point recovers
the point. -/
theorem pubkey_roundtrip (p : G1Point) (h : onCurveG1 p) :
    pubkey_to_G1 (G1_to_pubkey p) = .ok p := by
  simp only [pubkey_to_G1, G1_to_pubkey,
    big_endian_toBytesBE 48 _ (compress_G1_lt p)]
  exact decompress_compress_G1 p h

/-!  ## `fq2pow` computes monoid powers; chunked evaluation of the large
constants (the primitive 8th root of unity `w` and the cube-residue
check value) within kernel stack limits. -/

theorem fq2powF_eq : ∀ (fuel : ℕ) (x : Fq2) (e : ℕ), e < 2 ^ fuel →
    fq2powF fuel x e = x ^ e := by
  intro fuel
  induction fuel with
  | zero =>
    intro x e he
    norm_num at he
    subst he
    simp [fq2powF]
  | succ n ih =>
    intro x e he
    by_cases h0 : e = 0
    · simp [fq2powF, h0]
    · have he2 : e / 2 < 2 ^ n := by
        have : e < 2 ^ n * 2 := by
          simpa [pow_succ] using he
        omega
      have hrec := ih (x * x) (e / 2) he2
      rcases Nat.even_or_odd e with heven | hodd
      · have hm2 : e % 2 = 0 := Nat.even_iff.mp heven
        have hdiv : 2 * (e / 2) = e := by omega
        simp only [fq2powF, h0, if_false, hm2, Nat.zero_ne_one]
        rw [hrec, ← pow_two, ← pow_mul, hdiv]
      · have hm2 : e % 2 = 1 := Nat.odd_iff.mp hodd
        have hdiv : 2 * (e / 2) + 1 = e := by omega
        simp only [fq2powF, h0, if_false, hm2, if_true]
        rw [hrec, ← pow_two, ← pow_mul, ← pow_succ, hdiv]

theorem fq2pow_eq (x : Fq2) (e : ℕ) : fq2pow x e = x ^ e :=
  fq2powF_eq (e + 1) x e
    (lt_of_lt_of_le (Nat.lt_two_pow e)
      (Nat.pow_le_pow_right (by norm_num) (Nat.le_succ e)))

theorem fq2inv_eq (z : Fq2) : Fq2.inv z = z⁻¹ := rfl

theorem fq2div_eq (a bv : Fq2) : Fq2.div a bv = a / bv := by
  rw [div_eq_mul_inv]
  rfl

/-- Splitting an exponent into three 300-bit chunks. -/
theorem pow_split300 (x : Fq2) (e : ℕ) :
    x ^ e = ((x ^ (e / 2 ^ 600)) ^ 2 ^ 300 * x ^ (e / 2 ^ 300 % 2 ^ 300)) ^ 2 ^ 300 *
      x ^ (e % 2 ^ 300) := by
  rw [← pow_mul, ← pow_add, ← pow_mul, ← pow_add]
  congr 1
  have h600 : e / 2 ^ 600 = e / 2 ^ 300 / 2 ^ 300 := by
    rw [Nat.div_div_eq_div_mul, ← pow_add]
  have h1 : e / 2 ^ 300 / 2 ^ 300 * 2 ^ 300 + e / 2 ^ 300 % 2 ^ 300 = e / 2 ^ 300 :=
    Nat.div_add_mod' _ _
  rw [h600, h1]
  exact (Nat.div_add_mod' _ _).symm

theorem fq2_eq_of_parts {a : Fq2} {r i : ZMod q} (h1 : a.re = r) (h2 : a.im = i) :
    a = ⟨r, i⟩ :=
  Fq2.ext h1 h2

/-- Splitting an exponent into four 200-bit chunks, so that each factor
is computable within the kernel stack limit. -/
theorem pow_split200 (x : Fq2) (e : ℕ) :
    x ^ e = (((x ^ (e / 2 ^ 600)) ^ 2 ^ 200 * x ^ (e / 2 ^ 400 % 2 ^ 200)) ^ 2 ^ 200 *
      x ^ (e / 2 ^ 200 % 2 ^ 200)) ^ 2 ^ 200 * x ^ (e % 2 ^ 200) := by
  rw [← pow_mul, ← pow_add, ← pow_mul, ← pow_add, ← pow_mul, ← pow_add]
  congr 1
  have h400 : e / 2 ^ 400 = e / 2 ^ 200 / 2 ^ 200 := by
    rw [Nat.div_div_eq_div_mul]
    norm_num
  have h600 : e / 2 ^ 600 = e / 2 ^ 200 / 2 ^ 200 / 2 ^ 200 := by
    rw [Nat.div_div_eq_div_mul, Nat.div_div_eq_div_mul]
    norm_num
  rw [h600, h400, Nat.div_add_mod', Nat.div_add_mod']
  exact (Nat.div_add_mod' _ _).symm

theorem wround_c3 : fq2pow (⟨1, 1⟩ : Fq2) (FQ2_ORDER / 8 / 2 ^ 600) = (⟨(0x7ec8b06047a43eb3641cbfa490bd72ce2c68513b849a4d79392d002c2551b9da174c5a724cfc5bc228ce5e0bbd05bc1 : ℕ), (0x7ec8b06047a43eb3641cbfa490bd72ce2c68513b849a4d79392d002c2551b9da174c5a724cfc5bc228ce5e0bbd05bc1 : ℕ)⟩ : Fq2) :=
  fq2_eq_of_parts (by decide) (by decide)

theorem wround_s3 : fq2pow (⟨(0x7ec8b06047a43eb3641cbfa490bd72ce2c68513b849a4d79392d002c2551b9da174c5a724cfc5bc228ce5e0bbd05bc1 : ℕ), (0x7ec8b06047a43eb3641cbfa490bd72ce2c68513b849a4d79392d002c2551b9da174c5a724cfc5bc228ce5e0bbd05bc1 : ℕ)⟩ : Fq2) (2 ^ 200) = (⟨(0x93826288f45ca26166a8a6e53e0204a92083696f8c12b35e8371eab4cae05eff86987b998b5e0f70b7b3aa04a5d0355 : ℕ), (0x0 : ℕ)⟩ : Fq2) :=
  fq2_eq_of_parts (by decide) (by decide)

theorem wround_c2 : fq2pow (⟨1, 1⟩ : Fq2) (FQ2_ORDER / 8 / 2 ^ 400 % 2 ^ 200) = (⟨(0x6cfe6650a98e059015a79f9417aa8380170c9023813204df4599d0352d50d4e63d2b33a8a98cb8f07164e58c3f07123 : ℕ), (0x13312b852ee7064149c12dbd01d1049f63068282bb71f27172d7359da3dbe8d5bad94cc426bb3470b2e8b1a73c0f3988 : ℕ)⟩ : Fq2) :=
  fq2_eq_of_parts (by decide) (by decide)

theorem wround_m2 : (⟨(0x93826288f45ca26166a8a6e53e0204a92083696f8c12b35e8371eab4cae05eff86987b998b5e0f70b7b3aa04a5d0355 : ℕ), (0x0 : ℕ)⟩ : Fq2) * (⟨(0x6cfe6650a98e059015a79f9417aa8380170c9023813204df4599d0352d50d4e63d2b33a8a98cb8f07164e58c3f07123 : ℕ), (0x13312b852ee7064149c12dbd01d1049f63068282bb71f27172d7359da3dbe8d5bad94cc426bb3470b2e8b1a73c0f3988 : ℕ)⟩ : Fq2) = (⟨(0x119c042cdaa66ac3f89f0159793e9e636237f72149ed0a57f5f3ffffc64d84a8bad0f73076ddbfba29d3cbd2f25c0448 : ℕ), (0x8650dbd5ed97bd6527ca65cca0d0e74023f5463a9980867713cd2a13063717b63db08ce3a764045902b342d0da3a663 : ℕ)⟩ : Fq2) :=
  fq2_eq_of_parts (by decide) (by decide)

theorem wround_s2 : fq2pow (⟨(0x119c042cdaa66ac3f89f0159793e9e636237f72149ed0a57f5f3ffffc64d84a8bad0f73076ddbfba29d3cbd2f25c0448 : ℕ), (0x8650dbd5ed97bd6527ca65cca0d0e74023f5463a9980867713cd2a13063717b63db08ce3a764045902b342d0da3a663 : ℕ)⟩ : Fq2) (2 ^ 200) = (⟨(0x170519566d6becbb468fb5ddfa8ce87153ba470685d99cac6598dc1a4a6c8a652eeb3b23f64ba494775c5da764a82ebe : ℕ), (0x0 : ℕ)⟩ : Fq2) :=
  fq2_eq_of_parts (by decide) (by decide)

theorem wround_c1 : fq2pow (⟨1, 1⟩ : Fq2) (FQ2_ORDER / 8 / 2 ^ 200 % 2 ^ 200) = (⟨(0x0 : ℕ), (0x8a5ef067fba35e9c115c7912507b38d8569180ce8f7b3ea219da3ce127adbcff90df84829b70168f56c718d745e4f1a : ℕ)⟩ : Fq2) :=
  fq2_eq_of_parts (by decide) (by decide)

theorem wround_m1 : (⟨(0x170519566d6becbb468fb5ddfa8ce87153ba470685d99cac6598dc1a4a6c8a652eeb3b23f64ba494775c5da764a82ebe : ℕ), (0x0 : ℕ)⟩ : Fq2) * (⟨(0x0 : ℕ), (0x8a5ef067fba35e9c115c7912507b38d8569180ce8f7b3ea219da3ce127adbcff90df84829b70168f56c718d745e4f1a : ℕ)⟩ : Fq2) = (⟨(0x0 : ℕ), (0xa93f4fa16d748b362cabef39c81d87361c6ac36cfa0030dafd848f3c16f7837d35f53d330fff6a623b3cb156882029f : ℕ)⟩ : Fq2) :=
  fq2_eq_of_parts (by decide) (by decide)

theorem wround_s1 : fq2pow (⟨(0x0 : ℕ), (0xa93f4fa16d748b362cabef39c81d87361c6ac36cfa0030dafd848f3c16f7837d35f53d330fff6a623b3cb156882029f : ℕ)⟩ : Fq2) (2 ^ 200) = (⟨(0x102e3b9742d034caeafa3f460102f6342f90a68adc4b2419c1668e023eeffcfc89e4f14691e3a1c87299b7f9e5182eeb : ℕ), (0x0 : ℕ)⟩ : Fq2) :=
  fq2_eq_of_parts (by decide) (by decide)

theorem wround_c0 : fq2pow (⟨1, 1⟩ : Fq2) (FQ2_ORDER / 8 % 2 ^ 200) = (⟨(0x97f8e44fca4d5403308d379407ed31b300bf057a09809e1489f6d0190144125e9dfcbed715ed9e0836298aa2b2092a2 : ℕ), (0x108183a53cdb115a1812d43d02ccd9bc346b5b2d52ed08de1e91659f669cb4fe34cc34113ff5261f369c6755d4df1809 : ℕ)⟩ : Fq2) :=
  fq2_eq_of_parts (by decide) (by decide)

theorem wround_m0 : (⟨(0x102e3b9742d034caeafa3f460102f6342f90a68adc4b2419c1668e023eeffcfc89e4f14691e3a1c87299b7f9e5182eeb : ℕ), (0x0 : ℕ)⟩ : Fq2) * (⟨(0x97f8e44fca4d5403308d379407ed31b300bf057a09809e1489f6d0190144125e9dfcbed715ed9e0836298aa2b2092a2 : ℕ), (0x108183a53cdb115a1812d43d02ccd9bc346b5b2d52ed08de1e91659f669cb4fe34cc34113ff5261f369c6755d4df1809 : ℕ)⟩ : Fq2) = (⟨(0x6af0e0437ff400b6831e36d6bd17ffe48395dabc2d3435e77f76e17009241c5ee67992f72ec05f4c81084fbede3cc09 : ℕ), (0x135203e60180a68ee2e9c448d77a2cd91c3dedd930b1cf60ef396489f61eb45e304466cf3e67fa0af1ee7b04121bdea2 : ℕ)⟩ : Fq2) :=
  fq2_eq_of_parts (by decide) (by decide)

theorem wround_eq : (⟨1, 1⟩ : Fq2) ^ (FQ2_ORDER / 8) = (⟨(0x6af0e0437ff400b6831e36d6bd17ffe48395dabc2d3435e77f76e17009241c5ee67992f72ec05f4c81084fbede3cc09 : ℕ), (0x135203e60180a68ee2e9c448d77a2cd91c3dedd930b1cf60ef396489f61eb45e304466cf3e67fa0af1ee7b04121bdea2 : ℕ)⟩ : Fq2) := by
  rw [pow_split200]
  simp only [← fq2pow_eq]
  rw [wround_c3, wround_s3, wround_c2, wround_m2, wround_s2, wround_c1, wround_m1,
    wround_s1, wround_c0, wround_m0]

theorem cubeck_c3 : fq2pow (⟨(0x1a0111ea397fe69a4b1ba7b6434bacd764774b84f38512bf6730d2a0f6b0f6241eabfffeb153ffffb9feffffffffaaa7 : ℕ), (0x1a0111ea397fe69a4b1ba7b6434bacd764774b84f38512bf6730d2a0f6b0f6241eabfffeb153ffffb9feffffffffaaa7 : ℕ)⟩ : Fq2) (FQ2_ORDER / 3 / 2 ^ 600) = (⟨(0x0 : ℕ), (0x79c2a9ed0ef8f6d2a6e8621ea78b28e66bbd9aebdda4a7503bb7b98418950d7da46c9599abaec9f644eb5c8673f1703 : ℕ)⟩ : Fq2) :=
  fq2_eq_of_parts (by decide) (by decide)

theorem cubeck_s3 : fq2pow (⟨(0x0 : ℕ), (0x79c2a9ed0ef8f6d2a6e8621ea78b28e66bbd9aebdda4a7503bb7b98418950d7da46c9599abaec9f644eb5c8673f1703 : ℕ)⟩ : Fq2) (2 ^ 200) = (⟨(0x10154ba4940fbc35df7e9dd9785d45ca9de56fa4ed462b746f0faad4b32f0aba9dea7d3c5ec3194be83a1f663cb2e9e7 : ℕ), (0x0 : ℕ)⟩ : Fq2) :=
  fq2_eq_of_parts (by decide) (by decide)

theorem cubeck_c2 : fq2pow (⟨(0x1a0111ea397fe69a4b1ba7b6434bacd764774b84f38512bf6730d2a0f6b0f6241eabfffeb153ffffb9feffffffffaaa7 : ℕ), (0x1a0111ea397fe69a4b1ba7b6434bacd764774b84f38512bf6730d2a0f6b0f6241eabfffeb153ffffb9feffffffffaaa7 : ℕ)⟩ : Fq2) (FQ2_ORDER / 3 / 2 ^ 400 % 2 ^ 200) = (⟨(0x918cc9a90c4c1e38edb7d66b9a19f4036e6db5558279cbaee146b16ad369ebc2a4785a04a04cb544c20d08cc25ba6f5 : ℕ), (0x0 : ℕ)⟩ : Fq2) :=
  fq2_eq_of_parts (by decide) (by decide)

theorem cubeck_m2 : (⟨(0x10154ba4940fbc35df7e9dd9785d45ca9de56fa4ed462b746f0faad4b32f0aba9dea7d3c5ec3194be83a1f663cb2e9e7 : ℕ), (0x0 : ℕ)⟩ : Fq2) * (⟨(0x918cc9a90c4c1e38edb7d66b9a19f4036e6db5558279cbaee146b16ad369ebc2a4785a04a04cb544c20d08cc25ba6f5 : ℕ), (0x0 : ℕ)⟩ : Fq2) = (⟨(0xd485496a2f6b428191f83a92c5238c8a867cdcc886db05ea759d363f0735372f7d9561c896e221f7dca5dd60fdaa9c2 : ℕ), (0x0 : ℕ)⟩ : Fq2) :=
  fq2_eq_of_parts (by decide) (by decide)

theorem cubeck_s2 : fq2pow (⟨(0xd485496a2f6b428191f83a92c5238c8a867cdcc886db05ea759d363f0735372f7d9561c896e221f7dca5dd60fdaa9c2 : ℕ), (0x0 : ℕ)⟩ : Fq2) (2 ^ 200) = (⟨(0x1109528249ad2ee90ce5e63ece43a93fd297178dec8ac43aa58e6b12fa13a0bb9b67277032b7a6f660d964901b44f5d3 : ℕ), (0x0 : ℕ)⟩ : Fq2) :=
  fq2_eq_of_parts (by decide) (by decide)

theorem cubeck_c1 : fq2pow (⟨(0x1a0111ea397fe69a4b1ba7b6434bacd764774b84f38512bf6730d2a0f6b0f6241eabfffeb153ffffb9feffffffffaaa7 : ℕ), (0x1a0111ea397fe69a4b1ba7b6434bacd764774b84f38512bf6730d2a0f6b0f6241eabfffeb153ffffb9feffffffffaaa7 : ℕ)⟩ : Fq2) (FQ2_ORDER / 3 / 2 ^ 200 % 2 ^ 200) = (⟨(0xddab738ac42caec6bc4d66bbd6afe559c53d2938eeae81ac419301863c5662d3de828c62fa5fc4aab07982b02de652a : ℕ), (0xddab738ac42caec6bc4d66bbd6afe559c53d2938eeae81ac419301863c5662d3de828c62fa5fc4aab07982b02de652a : ℕ)⟩ : Fq2) :=
  fq2_eq_of_parts (by decide) (by decide)

theorem cubeck_m1 : (⟨(0x1109528249ad2ee90ce5e63ece43a93fd297178dec8ac43aa58e6b12fa13a0bb9b67277032b7a6f660d964901b44f5d3 : ℕ), (0x0 : ℕ)⟩ : Fq2) * (⟨(0xddab738ac42caec6bc4d66bbd6afe559c53d2938eeae81ac419301863c5662d3de828c62fa5fc4aab07982b02de652a : ℕ), (0xddab738ac42caec6bc4d66bbd6afe559c53d2938eeae81ac419301863c5662d3de828c62fa5fc4aab07982b02de652a : ℕ)⟩ : Fq2) = (⟨(0x3cb78d0ec59351cb80a9ca003e1ffe80db11b92231dbcacce0fa0d48ea42a0b9e24d8a51173c81df313075720fa60d5 : ℕ), (0x3cb78d0ec59351cb80a9ca003e1ffe80db11b92231dbcacce0fa0d48ea42a0b9e24d8a51173c81df313075720fa60d5 : ℕ)⟩ : Fq2) :=
  fq2_eq_of_parts (by decide) (by decide)

theorem cubeck_s1 : fq2pow (⟨(0x3cb78d0ec59351cb80a9ca003e1ffe80db11b92231dbcacce0fa0d48ea42a0b9e24d8a51173c81df313075720fa60d5 : ℕ), (0x3cb78d0ec59351cb80a9ca003e1ffe80db11b92231dbcacce0fa0d48ea42a0b9e24d8a51173c81df313075720fa60d5 : ℕ)⟩ : Fq2) (2 ^ 200) = (⟨(0x10c02f780d95237704269d785367c3cd5146d83cd96f449a710203af719cdbd28c6bf81e1cb001448bf8afa1ff2442f9 : ℕ), (0x0 : ℕ)⟩ : Fq2) :=
  fq2_eq_of_parts (by decide) (by decide)

theorem cubeck_c0 : fq2pow (⟨(0x1a0111ea397fe69a4b1ba7b6434bacd764774b84f38512bf6730d2a0f6b0f6241eabfffeb153ffffb9feffffffffaaa7 : ℕ), (0x1a0111ea397fe69a4b1ba7b6434bacd764774b84f38512bf6730d2a0f6b0f6241eabfffeb153ffffb9feffffffffaaa7 : ℕ)⟩ : Fq2) (FQ2_ORDER / 3 % 2 ^ 200) = (⟨(0x10d1031726a30cd2e20f7a5faddb473d692b5897e8911d95f4830ed460ed2696323d2bbe576b89469818c67927bf08b9 : ℕ), (0x0 : ℕ)⟩ : Fq2) :=
  fq2_eq_of_parts (by decide) (by decide)

theorem cubeck_m0 : (⟨(0x10c02f780d95237704269d785367c3cd5146d83cd96f449a710203af719cdbd28c6bf81e1cb001448bf8afa1ff2442f9 : ℕ), (0x0 : ℕ)⟩ : Fq2) * (⟨(0x10d1031726a30cd2e20f7a5faddb473d692b5897e8911d95f4830ed460ed2696323d2bbe576b89469818c67927bf08b9 : ℕ), (0x0 : ℕ)⟩ : Fq2) = (⟨(0x1a0111ea397fe699ec02408663d4de85aa0d857d89759ad4897d29650fb85f9b409427eb4f49fffd8bfd00000000aaac : ℕ), (0x0 : ℕ)⟩ : Fq2) :=
  fq2_eq_of_parts (by decide) (by decide)

theorem cubeck_eq : (⟨(0x1a0111ea397fe69a4b1ba7b6434bacd764774b84f38512bf6730d2a0f6b0f6241eabfffeb153ffffb9feffffffffaaa7 : ℕ), (0x1a0111ea397fe69a4b1ba7b6434bacd764774b84f38512bf6730d2a0f6b0f6241eabfffeb153ffffb9feffffffffaaa7 : ℕ)⟩ : Fq2) ^ (FQ2_ORDER / 3) = (⟨(0x1a0111ea397fe699ec02408663d4de85aa0d857d89759ad4897d29650fb85f9b409427eb4f49fffd8bfd00000000aaac : ℕ), (0x0 : ℕ)⟩ : Fq2) := by
  rw [pow_split200]
  simp only [← fq2pow_eq]
  rw [cubeck_c3, cubeck_s3, cubeck_c2, cubeck_m2, cubeck_s2, cubeck_c1, cubeck_m1,
    cubeck_s1, cubeck_c0, cubeck_m0]

theorem table_lit :
    EIGTH_ROOTS_OF_UNITY =
    [(⟨(0x1 : ℕ), (0x0 : ℕ)⟩ : Fq2),
     (⟨(0x6af0e0437ff400b6831e36d6bd17ffe48395dabc2d3435e77f76e17009241c5ee67992f72ec05f4c81084fbede3cc09 : ℕ), (0x135203e60180a68ee2e9c448d77a2cd91c3dedd930b1cf60ef396489f61eb45e304466cf3e67fa0af1ee7b04121bdea2 : ℕ)⟩ : Fq2),
     (⟨(0x0 : ℕ), (0x1 : ℕ)⟩ : Fq2),
     (⟨(0x6af0e0437ff400b6831e36d6bd17ffe48395dabc2d3435e77f76e17009241c5ee67992f72ec05f4c81084fbede3cc09 : ℕ), (0x6af0e0437ff400b6831e36d6bd17ffe48395dabc2d3435e77f76e17009241c5ee67992f72ec05f4c81084fbede3cc09 : ℕ)⟩ : Fq2),
     (⟨(0x1a0111ea397fe69a4b1ba7b6434bacd764774b84f38512bf6730d2a0f6b0f6241eabfffeb153ffffb9feffffffffaaaa : ℕ), (0x0 : ℕ)⟩ : Fq2),
     (⟨(0x135203e60180a68ee2e9c448d77a2cd91c3dedd930b1cf60ef396489f61eb45e304466cf3e67fa0af1ee7b04121bdea2 : ℕ), (0x6af0e0437ff400b6831e36d6bd17ffe48395dabc2d3435e77f76e17009241c5ee67992f72ec05f4c81084fbede3cc09 : ℕ)⟩ : Fq2),
     (⟨(0x0 : ℕ), (0x1a0111ea397fe69a4b1ba7b6434bacd764774b84f38512bf6730d2a0f6b0f6241eabfffeb153ffffb9feffffffffaaaa : ℕ)⟩ : Fq2),
     (⟨(0x135203e60180a68ee2e9c448d77a2cd91c3dedd930b1cf60ef396489f61eb45e304466cf3e67fa0af1ee7b04121bdea2 : ℕ), (0x135203e60180a68ee2e9c448d77a2cd91c3dedd930b1cf60ef396489f61eb45e304466cf3e67fa0af1ee7b04121bdea2 : ℕ)⟩ : Fq2)] := by
  have hk : ∀ k, fq2pow (⟨1, 1⟩ : Fq2) (FQ2_ORDER * k / 8) =
      (⟨(0x6af0e0437ff400b6831e36d6bd17ffe48395dabc2d3435e77f76e17009241c5ee67992f72ec05f4c81084fbede3cc09 : ℕ), (0x135203e60180a68ee2e9c448d77a2cd91c3dedd930b1cf60ef396489f61eb45e304466cf3e67fa0af1ee7b04121bdea2 : ℕ)⟩ : Fq2) ^ k := by
    intro k
    have h8 : FQ2_ORDER = 8 * (FQ2_ORDER / 8) := by
      have hM8 : FQ2_ORDER % 8 = 0 := by decide
      omega
    have hdiv : FQ2_ORDER * k / 8 = FQ2_ORDER / 8 * k := by
      conv_lhs => rw [h8]
      rw [mul_assoc, Nat.mul_div_cancel_left _ (by norm_num : (0 : ℕ) < 8)]
    rw [fq2pow_eq, hdiv, pow_mul, wround_eq]
  simp only [EIGTH_ROOTS_OF_UNITY,
    show List.range 8 = [0, 1, 2, 3, 4, 5, 6, 7] from rfl,
    List.map_cons, List.map_nil, hk]
  decide

/-!  ## Correctness of `modular_squareroot_in_FQ2`  -/

theorem val_neg_q (t : ZMod q) (ht : t ≠ 0) : (-t).val = q - t.val := by
  haveI : NeZero t := ⟨ht⟩
  exact ZMod.val_neg_of_ne_zero t

theorem val_pos_q (t : ZMod q) (ht : t ≠ 0) : 0 < t.val := by
  rcases Nat.eq_zero_or_pos t.val with h0 | h0
  · exact absurd ((ZMod.val_eq_zero t).mp h0) ht
  · exact h0

/-- Every fourth root of unity in the extension field is `1`, `-1`, `i`
or `-i`. -/
theorem fourth_roots (x : Fq2) (h : x ^ 4 = 1) :
    x = 1 ∨ x = -1 ∨ x = ⟨0, 1⟩ ∨ x = -⟨0, 1⟩ := by
  have hi2 : (⟨0, 1⟩ : Fq2) ^ 2 = -1 := by decide
  have h2 : (x ^ 2 - 1) * (x ^ 2 + 1) = 0 := by linear_combination h
  rcases mul_eq_zero.mp h2 with h1 | h1
  · have hx2 : x ^ 2 = 1 := by linear_combination h1
    have : (x - 1) * (x + 1) = 0 := by linear_combination hx2
    rcases mul_eq_zero.mp this with hh | hh
    · exact Or.inl (sub_eq_zero.mp hh)
    · exact Or.inr (Or.inl (eq_neg_of_add_eq_zero_left hh))
  · have hx2 : x ^ 2 = -1 := by linear_combination h1
    have : (x - ⟨0, 1⟩) * (x + ⟨0, 1⟩) = 0 := by linear_combination hx2 - hi2
    rcases mul_eq_zero.mp this with hh | hh
    · exact Or.inr (Or.inr (Or.inl (sub_eq_zero.mp hh)))
    · exact Or.inr (Or.inr (Or.inr (eq_neg_of_add_eq_zero_left hh)))

/-- If the code's tie-break condition rejects `a` (in favor of `-a`),
then `-a` satisfies it (with `a ≠ 0`): the choice is total. -/
theorem canonical_flip (a : Fq2) (ha : a ≠ 0)
    (hnc : ¬((-a).im.val < a.im.val ∨
      (a.im.val = (-a).im.val ∧ (-a).re.val < a.re.val))) :
    a.im.val < (-a).im.val ∨
      ((-a).im.val = a.im.val ∧ a.re.val < (-a).re.val) := by
  push_neg at hnc
  obtain ⟨h1, h2⟩ := hnc
  have hqodd : q % 2 = 1 := by decide
  by_cases him : a.im = 0
  · have hre : a.re ≠ 0 := fun h0 => ha (Fq2.ext h0 him)
    have hn_im : (-a).im.val = a.im.val := by
      rw [Fq2.neg_im, him, neg_zero]
    have hval : (-a).re.val = q - a.re.val := by
      rw [Fq2.neg_re]
      exact val_neg_q a.re hre
    have hpos : 0 < a.re.val := val_pos_q a.re hre
    have hlt : a.re.val < q := ZMod.val_lt a.re
    have h2' := h2 hn_im.symm
    right
    exact ⟨hn_im, by omega⟩
  · have hval : (-a).im.val = q - a.im.val := by
      rw [Fq2.neg_im]
      exact val_neg_q a.im him
    have hpos : 0 < a.im.val := val_pos_q a.im him
    have hlt : a.im.val < q := ZMod.val_lt a.im
    left
    omega

theorem sqrt_zero : modular_squareroot_in_FQ2 0 = none := by
  have hc : Fq2.div (fq2pow (fq2pow (0 : Fq2) ((FQ2_ORDER + 8) / 16)) 2) 0 = 0 := by
    rw [fq2pow_eq, fq2pow_eq, fq2div_eq,
      zero_pow (by decide : (FQ2_ORDER + 8) / 16 ≠ 0),
      zero_pow (by norm_num : (2 : ℕ) ≠ 0), zero_div]
  have hcond : Fq2.div (fq2pow (fq2pow (0 : Fq2) ((FQ2_ORDER + 8) / 16)) 2) 0 ∉
      sliceStep2 EIGTH_ROOTS_OF_UNITY := by
    rw [hc, table_lit]
    decide
  simp only [modular_squareroot_in_FQ2]
  rw [if_neg hcond]

/-- Soundness of the square-root solver: a returned root squares back to
the input and is the canonical choice (larger imaginary component, ties
broken by the larger real component) between the two roots. -/
theorem sqrt_sound (v y : Fq2) (h : modular_squareroot_in_FQ2 v = some y) :
    y * y = v ∧
    ((-y).im.val < y.im.val ∨
      (y.im.val = (-y).im.val ∧ (-y).re.val < y.re.val)) := by
  have hv : v ≠ 0 := by
    intro hv0
    rw [hv0, sqrt_zero] at h
    exact Option.noConfusion h
  simp only [modular_squareroot_in_FQ2, fq2pow_eq, fq2div_eq] at h
  by_cases hmem : (v ^ ((FQ2_ORDER + 8) / 16)) ^ 2 / v ∈ sliceStep2 EIGTH_ROOTS_OF_UNITY
  case neg =>
    rw [if_neg hmem] at h
    exact Option.noConfusion h
  rw [if_pos hmem] at h
  have hcand0 : v ^ ((FQ2_ORDER + 8) / 16) ≠ 0 := pow_ne_zero _ hv
  have hchk0 : (v ^ ((FQ2_ORDER + 8) / 16)) ^ 2 / v ≠ 0 :=
    div_ne_zero (pow_ne_zero _ hcand0) hv
  rw [table_lit] at hmem h
  simp only [sliceStep2, List.mem_cons, List.not_mem_nil, or_false] at hmem
  have main : ∀ t : Fq2, t * t = (v ^ ((FQ2_ORDER + 8) / 16)) ^ 2 / v →
      (if (-(v ^ ((FQ2_ORDER + 8) / 16) / t)).im.val <
            (v ^ ((FQ2_ORDER + 8) / 16) / t).im.val ∨
          ((v ^ ((FQ2_ORDER + 8) / 16) / t).im.val =
              (-(v ^ ((FQ2_ORDER + 8) / 16) / t)).im.val ∧
            (-(v ^ ((FQ2_ORDER + 8) / 16) / t)).re.val <
              (v ^ ((FQ2_ORDER + 8) / 16) / t).re.val) then
        some (v ^ ((FQ2_ORDER + 8) / 16) / t)
      else some (-(v ^ ((FQ2_ORDER + 8) / 16) / t))) = some y →
      y * y = v ∧
      ((-y).im.val < y.im.val ∨
        (y.im.val = (-y).im.val ∧ (-y).re.val < y.re.val)) := by
    intro t ht hit
    have hx1 : (v ^ ((FQ2_ORDER + 8) / 16) / t) *
        (v ^ ((FQ2_ORDER + 8) / 16) / t) = v := by
      rw [div_mul_div_comm, ht, ← pow_two, div_div_eq_mul_div,
        mul_div_cancel_left₀ _ (pow_ne_zero 2 hcand0)]
    have hx10 : v ^ ((FQ2_ORDER + 8) / 16) / t ≠ 0 := by
      intro h0
      rw [h0, zero_mul] at hx1
      exact hv hx1.symm
    by_cases hC : (-(v ^ ((FQ2_ORDER + 8) / 16) / t)).im.val <
          (v ^ ((FQ2_ORDER + 8) / 16) / t).im.val ∨
        ((v ^ ((FQ2_ORDER + 8) / 16) / t).im.val =
            (-(v ^ ((FQ2_ORDER + 8) / 16) / t)).im.val ∧
          (-(v ^ ((FQ2_ORDER + 8) / 16) / t)).re.val <
            (v ^ ((FQ2_ORDER + 8) / 16) / t).re.val)
    · rw [if_pos hC] at hit
      obtain rfl := Option.some.inj hit
      exact ⟨hx1, hC⟩
    · rw [if_neg hC] at hit
      obtain rfl := Option.some.inj hit
      constructor
      · rw [neg_mul_neg]
        exact hx1
      · rw [neg_neg]
        exact canonical_flip _ hx10 hC
  rcases hmem with hk | hk | hk | hk <;> rw [hk] at h
  · have hgd : ([(⟨(0x1 : ℕ), (0x0 : ℕ)⟩ : Fq2),
       (⟨(0x6af0e0437ff400b6831e36d6bd17ffe48395dabc2d3435e77f76e17009241c5ee67992f72ec05f4c81084fbede3cc09 : ℕ), (0x135203e60180a68ee2e9c448d77a2cd91c3dedd930b1cf60ef396489f61eb45e304466cf3e67fa0af1ee7b04121bdea2 : ℕ)⟩ : Fq2),
       (⟨(0x0 : ℕ), (0x1 : ℕ)⟩ : Fq2),
       (⟨(0x6af0e0437ff400b6831e36d6bd17ffe48395dabc2d3435e77f76e17009241c5ee67992f72ec05f4c81084fbede3cc09 : ℕ), (0x6af0e0437ff400b6831e36d6bd17ffe48395dabc2d3435e77f76e17009241c5ee67992f72ec05f4c81084fbede3cc09 : ℕ)⟩ : Fq2),
       (⟨(0x1a0111ea397fe69a4b1ba7b6434bacd764774b84f38512bf6730d2a0f6b0f6241eabfffeb153ffffb9feffffffffaaaa : ℕ), (0x0 : ℕ)⟩ : Fq2),
       (⟨(0x135203e60180a68ee2e9c448d77a2cd91c3dedd930b1cf60ef396489f61eb45e304466cf3e67fa0af1ee7b04121bdea2 : ℕ), (0x6af0e0437ff400b6831e36d6bd17ffe48395dabc2d3435e77f76e17009241c5ee67992f72ec05f4c81084fbede3cc09 : ℕ)⟩ : Fq2),
       (⟨(0x0 : ℕ), (0x1a0111ea397fe69a4b1ba7b6434bacd764774b84f38512bf6730d2a0f6b0f6241eabfffeb153ffffb9feffffffffaaaa : ℕ)⟩ : Fq2),
       (⟨(0x135203e60180a68ee2e9c448d77a2cd91c3dedd930b1cf60ef396489f61eb45e304466cf3e67fa0af1ee7b04121bdea2 : ℕ), (0x135203e60180a68ee2e9c448d77a2cd91c3dedd930b1cf60ef396489f61eb45e304466cf3e67fa0af1ee7b04121bdea2 : ℕ)⟩ : Fq2)] : List Fq2).getD
        (([(⟨(0x1 : ℕ), (0x0 : ℕ)⟩ : Fq2),
       (⟨(0x6af0e0437ff400b6831e36d6bd17ffe48395dabc2d3435e77f76e17009241c5ee67992f72ec05f4c81084fbede3cc09 : ℕ), (0x135203e60180a68ee2e9c448d77a2cd91c3dedd930b1cf60ef396489f61eb45e304466cf3e67fa0af1ee7b04121bdea2 : ℕ)⟩ : Fq2),
       (⟨(0x0 : ℕ), (0x1 : ℕ)⟩ : Fq2),
       (⟨(0x6af0e0437ff400b6831e36d6bd17ffe48395dabc2d3435e77f76e17009241c5ee67992f72ec05f4c81084fbede3cc09 : ℕ), (0x6af0e0437ff400b6831e36d6bd17ffe48395dabc2d3435e77f76e17009241c5ee67992f72ec05f4c81084fbede3cc09 : ℕ)⟩ : Fq2),
       (⟨(0x1a0111ea397fe69a4b1ba7b6434bacd764774b84f38512bf6730d2a0f6b0f6241eabfffeb153ffffb9feffffffffaaaa : ℕ), (0x0 : ℕ)⟩ : Fq2),
       (⟨(0x135203e60180a68ee2e9c448d77a2cd91c3dedd930b1cf60ef396489f61eb45e304466cf3e67fa0af1ee7b04121bdea2 : ℕ), (0x6af0e0437ff400b6831e36d6bd17ffe48395dabc2d3435e77f76e17009241c5ee67992f72ec05f4c81084fbede3cc09 : ℕ)⟩ : Fq2),
       (⟨(0x0 : ℕ), (0x1a0111ea397fe69a4b1ba7b6434bacd764774b84f38512bf6730d2a0f6b0f6241eabfffeb153ffffb9feffffffffaaaa : ℕ)⟩ : Fq2),
       (⟨(0x135203e60180a68ee2e9c448d77a2cd91c3dedd930b1cf60ef396489f61eb45e304466cf3e67fa0af1ee7b04121bdea2 : ℕ), (0x135203e60180a68ee2e9c448d77a2cd91c3dedd930b1cf60ef396489f61eb45e304466cf3e67fa0af1ee7b04121bdea2 : ℕ)⟩ : Fq2)] : List Fq2).indexOf (⟨(0x1 : ℕ), (0x0 : ℕ)⟩ : Fq2) / 2) 1 = (⟨(0x1 : ℕ), (0x0 : ℕ)⟩ : Fq2) := by decide
    rw [hgd] at h
    exact main _ ((by decide : (⟨(0x1 : ℕ), (0x0 : ℕ)⟩ : Fq2) * (⟨(0x1 : ℕ), (0x0 : ℕ)⟩ : Fq2) = (⟨(0x1 : ℕ), (0x0 : ℕ)⟩ : Fq2)).trans hk.symm) h
  · have hgd : ([(⟨(0x1 : ℕ), (0x0 : ℕ)⟩ : Fq2),
       (⟨(0x6af0e0437ff400b6831e36d6bd17ffe48395dabc2d3435e77f76e17009241c5ee67992f72ec05f4c81084fbede3cc09 : ℕ), (0x135203e60180a68ee2e9c448d77a2cd91c3dedd930b1cf60ef396489f61eb45e304466cf3e67fa0af1ee7b04121bdea2 : ℕ)⟩ : Fq2),
       (⟨(0x0 : ℕ), (0x1 : ℕ)⟩ : Fq2),
       (⟨(0x6af0e0437ff400b6831e36d6bd17ffe48395dabc2d3435e77f76e17009241c5ee67992f72ec05f4c81084fbede3cc09 : ℕ), (0x6af0e0437ff400b6831e36d6bd17ffe48395dabc2d3435e77f76e17009241c5ee67992f72ec05f4c81084fbede3cc09 : ℕ)⟩ : Fq2),
       (⟨(0x1a0111ea397fe69a4b1ba7b6434bacd764774b84f38512bf6730d2a0f6b0f6241eabfffeb153ffffb9feffffffffaaaa : ℕ), (0x0 : ℕ)⟩ : Fq2),
       (⟨(0x135203e60180a68ee2e9c448d77a2cd91c3dedd930b1cf60ef396489f61eb45e304466cf3e67fa0af1ee7b04121bdea2 : ℕ), (0x6af0e0437ff400b6831e36d6bd17ffe48395dabc2d3435e77f76e17009241c5ee67992f72ec05f4c81084fbede3cc09 : ℕ)⟩ : Fq2),
       (⟨(0x0 : ℕ), (0x1a0111ea397fe69a4b1ba7b6434bacd764774b84f38512bf6730d2a0f6b0f6241eabfffeb153ffffb9feffffffffaaaa : ℕ)⟩ : Fq2),
       (⟨(0x135203e60180a68ee2e9c448d77a2cd91c3dedd930b1cf60ef396489f61eb45e304466cf3e67fa0af1ee7b04121bdea2 : ℕ), (0x135203e60180a68ee2e9c448d77a2cd91c3dedd930b1cf60ef396489f61eb45e304466cf3e67fa0af1ee7b04121bdea2 : ℕ)⟩ : Fq2)] : List Fq2).getD
        (([(⟨(0x1 : ℕ), (0x0 : ℕ)⟩ : Fq2),
       (⟨(0x6af0e0437ff400b6831e36d6bd17ffe48395dabc2d3435e77f76e17009241c5ee67992f72ec05f4c81084fbede3cc09 : ℕ), (0x135203e60180a68ee2e9c448d77a2cd91c3dedd930b1cf60ef396489f61eb45e304466cf3e67fa0af1ee7b04121bdea2 : ℕ)⟩ : Fq2),
       (⟨(0x0 : ℕ), (0x1 : ℕ)⟩ : Fq2),
       (⟨(0x6af0e0437ff400b6831e36d6bd17ffe48395dabc2d3435e77f76e17009241c5ee67992f72ec05f4c81084fbede3cc09 : ℕ), (0x6af0e0437ff400b6831e36d6bd17ffe48395dabc2d3435e77f76e17009241c5ee67992f72ec05f4c81084fbede3cc09 : ℕ)⟩ : Fq2),
       (⟨(0x1a0111ea397fe69a4b1ba7b6434bacd764774b84f38512bf6730d2a0f6b0f6241eabfffeb153ffffb9feffffffffaaaa : ℕ), (0x0 : ℕ)⟩ : Fq2),
       (⟨(0x135203e60180a68ee2e9c448d77a2cd91c3dedd930b1cf60ef396489f61eb45e304466cf3e67fa0af1ee7b04121bdea2 : ℕ), (0x6af0e0437ff400b6831e36d6bd17ffe48395dabc2d3435e77f76e17009241c5ee67992f72ec05f4c81084fbede3cc09 : ℕ)⟩ : Fq2),
       (⟨(0x0 : ℕ), (0x1a0111ea397fe69a4b1ba7b6434bacd764774b84f38512bf6730d2a0f6b0f6241eabfffeb153ffffb9feffffffffaaaa : ℕ)⟩ : Fq2),
       (⟨(0x135203e60180a68ee2e9c448d77a2cd91c3dedd930b1cf60ef396489f61eb45e304466cf3e67fa0af1ee7b04121bdea2 : ℕ), (0x135203e60180a68ee2e9c448d77a2cd91c3dedd930b1cf60ef396489f61eb45e304466cf3e67fa0af1ee7b04121bdea2 : ℕ)⟩ : Fq2)] : List Fq2).indexOf (⟨(0x0 : ℕ), (0x1 : ℕ)⟩ : Fq2) / 2) 1 = (⟨(0x6af0e0437ff400b6831e36d6bd17ffe48395dabc2d3435e77f76e17009241c5ee67992f72ec05f4c81084fbede3cc09 : ℕ), (0x135203e60180a68ee2e9c448d77a2cd91c3dedd930b1cf60ef396489f61eb45e304466cf3e67fa0af1ee7b04121bdea2 : ℕ)⟩ : Fq2) := by decide
    rw [hgd] at h
    exact main _ ((by decide : (⟨(0x6af0e0437ff400b6831e36d6bd17ffe48395dabc2d3435e77f76e17009241c5ee67992f72ec05f4c81084fbede3cc09 : ℕ), (0x135203e60180a68ee2e9c448d77a2cd91c3dedd930b1cf60ef396489f61eb45e304466cf3e67fa0af1ee7b04121bdea2 : ℕ)⟩ : Fq2) * (⟨(0x6af0e0437ff400b6831e36d6bd17ffe48395dabc2d3435e77f76e17009241c5ee67992f72ec05f4c81084fbede3cc09 : ℕ), (0x135203e60180a68ee2e9c448d77a2cd91c3dedd930b1cf60ef396489f61eb45e304466cf3e67fa0af1ee7b04121bdea2 : ℕ)⟩ : Fq2) = (⟨(0x0 : ℕ), (0x1 : ℕ)⟩ : Fq2)).trans hk.symm) h
  · have hgd : ([(⟨(0x1 : ℕ), (0x0 : ℕ)⟩ : Fq2),
       (⟨(0x6af0e0437ff400b6831e36d6bd17ffe48395dabc2d3435e77f76e17009241c5ee67992f72ec05f4c81084fbede3cc09 : ℕ), (0x135203e60180a68ee2e9c448d77a2cd91c3dedd930b1cf60ef396489f61eb45e304466cf3e67fa0af1ee7b04121bdea2 : ℕ)⟩ : Fq2),
       (⟨(0x0 : ℕ), (0x1 : ℕ)⟩ : Fq2),
       (⟨(0x6af0e0437ff400b6831e36d6bd17ffe48395dabc2d3435e77f76e17009241c5ee67992f72ec05f4c81084fbede3cc09 : ℕ), (0x6af0e0437ff400b6831e36d6bd17ffe48395dabc2d3435e77f76e17009241c5ee67992f72ec05f4c81084fbede3cc09 : ℕ)⟩ : Fq2),
       (⟨(0x1a0111ea397fe69a4b1ba7b6434bacd764774b84f38512bf6730d2a0f6b0f6241eabfffeb153ffffb9feffffffffaaaa : ℕ), (0x0 : ℕ)⟩ : Fq2),
       (⟨(0x135203e60180a68ee2e9c448d77a2cd91c3dedd930b1cf60ef396489f61eb45e304466cf3e67fa0af1ee7b04121bdea2 : ℕ), (0x6af0e0437ff400b6831e36d6bd17ffe48395dabc2d3435e77f76e17009241c5ee67992f72ec05f4c81084fbede3cc09 : ℕ)⟩ : Fq2),
       (⟨(0x0 : ℕ), (0x1a0111ea397fe69a4b1ba7b6434bacd764774b84f38512bf6730d2a0f6b0f6241eabfffeb153ffffb9feffffffffaaaa : ℕ)⟩ : Fq2),
       (⟨(0x135203e60180a68ee2e9c448d77a2cd91c3dedd930b1cf60ef396489f61eb45e304466cf3e67fa0af1ee7b04121bdea2 : ℕ), (0x135203e60180a68ee2e9c448d77a2cd91c3dedd930b1cf60ef396489f61eb45e304466cf3e67fa0af1ee7b04121bdea2 : ℕ)⟩ : Fq2)] : List Fq2).getD
        (([(⟨(0x1 : ℕ), (0x0 : ℕ)⟩ : Fq2),
       (⟨(0x6af0e0437ff400b6831e36d6bd17ffe48395dabc2d3435e77f76e17009241c5ee67992f72ec05f4c81084fbede3cc09 : ℕ), (0x135203e60180a68ee2e9c448d77a2cd91c3dedd930b1cf60ef396489f61eb45e304466cf3e67fa0af1ee7b04121bdea2 : ℕ)⟩ : Fq2),
       (⟨(0x0 : ℕ), (0x1 : ℕ)⟩ : Fq2),
       (⟨(0x6af0e0437ff400b6831e36d6bd17ffe48395dabc2d3435e77f76e17009241c5ee67992f72ec05f4c81084fbede3cc09 : ℕ), (0x6af0e0437ff400b6831e36d6bd17ffe48395dabc2d3435e77f76e17009241c5ee67992f72ec05f4c81084fbede3cc09 : ℕ)⟩ : Fq2),
       (⟨(0x1a0111ea397fe69a4b1ba7b6434bacd764774b84f38512bf6730d2a0f6b0f6241eabfffeb153ffffb9feffffffffaaaa : ℕ), (0x0 : ℕ)⟩ : Fq2),
       (⟨(0x135203e60180a68ee2e9c448d77a2cd91c3dedd930b1cf60ef396489f61eb45e304466cf3e67fa0af1ee7b04121bdea2 : ℕ), (0x6af0e0437ff400b6831e36d6bd17ffe48395dabc2d3435e77f76e17009241c5ee67992f72ec05f4c81084fbede3cc09 : ℕ)⟩ : Fq2),
       (⟨(0x0 : ℕ), (0x1a0111ea397fe69a4b1ba7b6434bacd764774b84f38512bf6730d2a0f6b0f6241eabfffeb153ffffb9feffffffffaaaa : ℕ)⟩ : Fq2),
       (⟨(0x135203e60180a68ee2e9c448d77a2cd91c3dedd930b1cf60ef396489f61eb45e304466cf3e67fa0af1ee7b04121bdea2 : ℕ), (0x135203e60180a68ee2e9c448d77a2cd91c3dedd930b1cf60ef396489f61eb45e304466cf3e67fa0af1ee7b04121bdea2 : ℕ)⟩ : Fq2)] : List Fq2).indexOf (⟨(0x1a0111ea397fe69a4b1ba7b6434bacd764774b84f38512bf6730d2a0f6b0f6241eabfffeb153ffffb9feffffffffaaaa : ℕ), (0x0 : ℕ)⟩ : Fq2) / 2) 1 = (⟨(0x0 : ℕ), (0x1 : ℕ)⟩ : Fq2) := by decide
    rw [hgd] at h
    exact main _ ((by decide : (⟨(0x0 : ℕ), (0x1 : ℕ)⟩ : Fq2) * (⟨(0x0 : ℕ), (0x1 : ℕ)⟩ : Fq2) = (⟨(0x1a0111ea397fe69a4b1ba7b6434bacd764774b84f38512bf6730d2a0f6b0f6241eabfffeb153ffffb9feffffffffaaaa : ℕ), (0x0 : ℕ)⟩ : Fq2)).trans hk.symm) h
  · have hgd : ([(⟨(0x1 : ℕ), (0x0 : ℕ)⟩ : Fq2),
       (⟨(0x6af0e0437ff400b6831e36d6bd17ffe48395dabc2d3435e77f76e17009241c5ee67992f72ec05f4c81084fbede3cc09 : ℕ), (0x135203e60180a68ee2e9c448d77a2cd91c3dedd930b1cf60ef396489f61eb45e304466cf3e67fa0af1ee7b04121bdea2 : ℕ)⟩ : Fq2),
       (⟨(0x0 : ℕ), (0x1 : ℕ)⟩ : Fq2),
       (⟨(0x6af0e0437ff400b6831e36d6bd17ffe48395dabc2d3435e77f76e17009241c5ee67992f72ec05f4c81084fbede3cc09 : ℕ), (0x6af0e0437ff400b6831e36d6bd17ffe48395dabc2d3435e77f76e17009241c5ee67992f72ec05f4c81084fbede3cc09 : ℕ)⟩ : Fq2),
       (⟨(0x1a0111ea397fe69a4b1ba7b6434bacd764774b84f38512bf6730d2a0f6b0f6241eabfffeb153ffffb9feffffffffaaaa : ℕ), (0x0 : ℕ)⟩ : Fq2),
       (⟨(0x135203e60180a68ee2e9c448d77a2cd91c3dedd930b1cf60ef396489f61eb45e304466cf3e67fa0af1ee7b04121bdea2 : ℕ), (0x6af0e0437ff400b6831e36d6bd17ffe48395dabc2d3435e77f76e17009241c5ee67992f72ec05f4c81084fbede3cc09 : ℕ)⟩ : Fq2),
       (⟨(0x0 : ℕ), (0x1a0111ea397fe69a4b1ba7b6434bacd764774b84f38512bf6730d2a0f6b0f6241eabfffeb153ffffb9feffffffffaaaa : ℕ)⟩ : Fq2),
       (⟨(0x135203e60180a68ee2e9c448d77a2cd91c3dedd930b1cf60ef396489f61eb45e304466cf3e67fa0af1ee7b04121bdea2 : ℕ), (0x135203e60180a68ee2e9c448d77a2cd91c3dedd930b1cf60ef396489f61eb45e304466cf3e67fa0af1ee7b04121bdea2 : ℕ)⟩ : Fq2)] : List Fq2).getD
        (([(⟨(0x1 : ℕ), (0x0 : ℕ)⟩ : Fq2),
       (⟨(0x6af0e0437ff400b6831e36d6bd17ffe48395dabc2d3435e77f76e17009241c5ee67992f72ec05f4c81084fbede3cc09 : ℕ), (0x135203e60180a68ee2e9c448d77a2cd91c3dedd930b1cf60ef396489f61eb45e304466cf3e67fa0af1ee7b04121bdea2 : ℕ)⟩ : Fq2),
       (⟨(0x0 : ℕ), (0x1 : ℕ)⟩ : Fq2),
       (⟨(0x6af0e0437ff400b6831e36d6bd17ffe48395dabc2d3435e77f76e17009241c5ee67992f72ec05f4c81084fbede3cc09 : ℕ), (0x6af0e0437ff400b6831e36d6bd17ffe48395dabc2d3435e77f76e17009241c5ee67992f72ec05f4c81084fbede3cc09 : ℕ)⟩ : Fq2),
       (⟨(0x1a0111ea397fe69a4b1ba7b6434bacd764774b84f38512bf6730d2a0f6b0f6241eabfffeb153ffffb9feffffffffaaaa : ℕ), (0x0 : ℕ)⟩ : Fq2),
       (⟨(0x135203e60180a68ee2e9c448d77a2cd91c3dedd930b1cf60ef396489f61eb45e304466cf3e67fa0af1ee7b04121bdea2 : ℕ), (0x6af0e0437ff400b6831e36d6bd17ffe48395dabc2d3435e77f76e17009241c5ee67992f72ec05f4c81084fbede3cc09 : ℕ)⟩ : Fq2),
       (⟨(0x0 : ℕ), (0x1a0111ea397fe69a4b1ba7b6434bacd764774b84f38512bf6730d2a0f6b0f6241eabfffeb153ffffb9feffffffffaaaa : ℕ)⟩ : Fq2),
       (⟨(0x135203e60180a68ee2e9c448d77a2cd91c3dedd930b1cf60ef396489f61eb45e304466cf3e67fa0af1ee7b04121bdea2 : ℕ), (0x135203e60180a68ee2e9c448d77a2cd91c3dedd930b1cf60ef396489f61eb45e304466cf3e67fa0af1ee7b04121bdea2 : ℕ)⟩ : Fq2)] : List Fq2).indexOf (⟨(0x0 : ℕ), (0x1a0111ea397fe69a4b1ba7b6434bacd764774b84f38512bf6730d2a0f6b0f6241eabfffeb153ffffb9feffffffffaaaa : ℕ)⟩ : Fq2) / 2) 1 = (⟨(0x6af0e0437ff400b6831e36d6bd17ffe48395dabc2d3435e77f76e17009241c5ee67992f72ec05f4c81084fbede3cc09 : ℕ), (0x6af0e0437ff400b6831e36d6bd17ffe48395dabc2d3435e77f76e17009241c5ee67992f72ec05f4c81084fbede3cc09 : ℕ)⟩ : Fq2) := by decide
    rw [hgd] at h
    exact main _ ((by decide : (⟨(0x6af0e0437ff400b6831e36d6bd17ffe48395dabc2d3435e77f76e17009241c5ee67992f72ec05f4c81084fbede3cc09 : ℕ), (0x6af0e0437ff400b6831e36d6bd17ffe48395dabc2d3435e77f76e17009241c5ee67992f72ec05f4c81084fbede3cc09 : ℕ)⟩ : Fq2) * (⟨(0x6af0e0437ff400b6831e36d6bd17ffe48395dabc2d3435e77f76e17009241c5ee67992f72ec05f4c81084fbede3cc09 : ℕ), (0x6af0e0437ff400b6831e36d6bd17ffe48395dabc2d3435e77f76e17009241c5ee67992f72ec05f4c81084fbede3cc09 : ℕ)⟩ : Fq2) = (⟨(0x0 : ℕ), (0x1a0111ea397fe69a4b1ba7b6434bacd764774b84f38512bf6730d2a0f6b0f6241eabfffeb153ffffb9feffffffffaaaa : ℕ)⟩ : Fq2)).trans hk.symm) h

/-- Completeness of the square-root solver: every nonzero square gets a
root (the `check` value is a fourth root of unity, hence an even-indexed
table entry). -/
theorem sqrt_complete (v : Fq2) (hv : v ≠ 0) (hsq : IsSquare v) :
    ∃ y, modular_squareroot_in_FQ2 v = some y := by
  obtain ⟨u, hu⟩ := hsq
  have hu0 : u ≠ 0 := by
    intro h0
    rw [h0, mul_zero] at hu
    exact hv hu
  simp only [modular_squareroot_in_FQ2, fq2pow_eq, fq2div_eq]
  have hchk : (v ^ ((FQ2_ORDER + 8) / 16)) ^ 2 / v = v ^ (FQ2_ORDER / 8) := by
    rw [← pow_mul, show (FQ2_ORDER + 8) / 16 * 2 = FQ2_ORDER / 8 + 1 from by decide,
      pow_succ, mul_div_cancel_right₀ _ hv]
  have h4 : (v ^ (FQ2_ORDER / 8)) ^ 4 = 1 := by
    rw [← pow_mul, hu, ← pow_two, ← pow_mul,
      show 2 * (FQ2_ORDER / 8 * 4) = q ^ 2 - 1 from by decide]
    exact fq2_pow_order_eq_one u hu0
  have hmem : (v ^ ((FQ2_ORDER + 8) / 16)) ^ 2 / v ∈ sliceStep2 EIGTH_ROOTS_OF_UNITY := by
    rw [hchk, table_lit]
    simp only [sliceStep2, List.mem_cons, List.not_mem_nil, or_false]
    rcases fourth_roots _ h4 with h | h | h | h <;> rw [h]
    · exact Or.inl (by decide)
    · exact Or.inr (Or.inr (Or.inl (by decide)))
    · exact Or.inr (Or.inl (by decide))
    · exact Or.inr (Or.inr (Or.inr (by decide)))
  rw [if_pos hmem, ← apply_ite Option.some]
  exact ⟨_, rfl⟩

/-- The twisted curve has no point with `y = 0`: `-b2` is not a cube in
the extension field (checked through `cubeck_eq`). -/
theorem G2_y_nonzero (x y : Fq2) (h : y * y = x * x * x + b2) : y ≠ 0 := by
  intro hy0
  rw [hy0, zero_mul] at h
  have hx3 : x * x * x = -b2 := eq_neg_of_add_eq_zero_left h.symm
  have hx0 : x ≠ 0 := by
    intro h0
    rw [h0] at hx3
    have h00 : (0 : Fq2) = -b2 := by
      rw [← hx3]
      ring
    exact (by decide : (0 : Fq2) ≠ -b2) h00
  have h1 : (x * x * x) ^ (FQ2_ORDER / 3) = 1 := by
    rw [show x * x * x = x ^ 3 from by ring, ← pow_mul,
      show 3 * (FQ2_ORDER / 3) = q ^ 2 - 1 from by decide]
    exact fq2_pow_order_eq_one x hx0
  rw [hx3] at h1
  have hbase : -b2 =
      (⟨(0x1a0111ea397fe69a4b1ba7b6434bacd764774b84f38512bf6730d2a0f6b0f6241eabfffeb153ffffb9feffffffffaaa7 : ℕ),
        (0x1a0111ea397fe69a4b1ba7b6434bacd764774b84f38512bf6730d2a0f6b0f6241eabfffeb153ffffb9feffffffffaaa7 : ℕ)⟩ : Fq2) := by
    decide
  rw [hbase] at h1
  have hL := cubeck_eq
  rw [h1] at hL
  exact (by decide :
    ((1 : Fq2) ≠
      ⟨(0x1a0111ea397fe699ec02408663d4de85aa0d857d89759ad4897d29650fb85f9b409427eb4f49fffd8bfd00000000aaac : ℕ),
       (0x0 : ℕ)⟩)) hL

/-- The G2 `a_flag1` selector: the condition tested by `decompress_G2`
is exactly "the selected flag of `t` differs from `a`". -/
theorem condsel (t : Fq2) (a : ℕ) :
    ((0 < t.im.val ∧ t.im.val * 2 / q ≠ a) ∨
      (t.im.val = 0 ∧ t.re.val * 2 / q ≠ a)) ↔
    (if 0 < t.im.val then t.im.val * 2 / q else t.re.val * 2 / q) ≠ a := by
  by_cases h : 0 < t.im.val
  · rw [if_pos h]
    constructor
    · rintro (⟨_, hne⟩ | ⟨h0, _⟩)
      · exact hne
      · omega
    · intro hne
      exact Or.inl ⟨h, hne⟩
  · rw [if_neg h]
    constructor
    · rintro (⟨hpos, _⟩ | ⟨_, hne⟩)
      · exact absurd hpos h
      · exact hne
    · intro hne
      exact Or.inr ⟨by omega, hne⟩

/-- The G2 flag selector is a bit, and negation flips it. -/
theorem flagsel_neg (t : Fq2) (ht : t ≠ 0) :
    (if 0 < (-t).im.val then (-t).im.val * 2 / q else (-t).re.val * 2 / q) =
      1 - (if 0 < t.im.val then t.im.val * 2 / q else t.re.val * 2 / q) ∧
    (if 0 < t.im.val then t.im.val * 2 / q else t.re.val * 2 / q) ≤ 1 := by
  have hqodd : q % 2 = 1 := by decide
  by_cases him : t.im = 0
  · have hre : t.re ≠ 0 := fun h0 => ht (Fq2.ext h0 him)
    have hflip := flag_flip q t.re.val hqodd (val_pos_q t.re hre) (ZMod.val_lt t.re)
    have hnim : (-t).im.val = 0 := by
      rw [Fq2.neg_im, him, neg_zero, ZMod.val_zero]
    have hnre : (-t).re.val = q - t.re.val := by
      rw [Fq2.neg_re]
      exact val_neg_q t.re hre
    rw [if_neg (by rw [hnim]; omega), if_neg (by rw [him, ZMod.val_zero]; omega), hnre]
    exact ⟨hflip.1, hflip.2⟩
  · have hflip := flag_flip q t.im.val hqodd (val_pos_q t.im him) (ZMod.val_lt t.im)
    have hnim : (-t).im.val = q - t.im.val := by
      rw [Fq2.neg_im]
      exact val_neg_q t.im him
    have hq2 : 2 ≤ q := q_prime.two_le
    have himpos : 0 < t.im.val := val_pos_q t.im him
    have himlt : t.im.val < q := ZMod.val_lt t.im
    rw [if_pos (by rw [hnim]; omega), if_pos himpos, hnim]
    exact ⟨hflip.1, hflip.2⟩

/-- G2 round trip: compressing any point on the twisted curve succeeds,
and decompressing the result returns exactly that point. -/
theorem decompress_compress_G2 (p : G2Point) (h : onCurveG2 p) :
    ∃ z, compress_G2 p = .ok z ∧ decompress_G2 z = .ok p := by
  cases p with
  | inf =>
    refine ⟨(POW_2_383 + POW_2_382, 0), ?_, ?_⟩
    · simp [compress_G2, onCurveG2]
    · decide
  | fin x y =>
    have hcurve : y * y = x * x * x + b2 := h
    have hy0 : y ≠ 0 := G2_y_nonzero x y hcurve
    set a1 := if 0 < y.im.val then y.im.val * 2 / q else y.re.val * 2 / q with ha1
    have hcomp : compress_G2 (.fin x y) =
        .ok (x.im.val + a1 * POW_2_381 + POW_2_383, x.re.val) := by
      simp only [compress_G2]
      rw [if_neg (not_not_intro (show onCurveG2 (.fin x y) from hcurve))]
    refine ⟨_, hcomp, ?_⟩
    have him_lt : x.im.val < POW_2_381 := lt_trans (ZMod.val_lt x.im) q_lt_pow381
    have ha1le : a1 ≤ 1 := ha1 ▸ (flagsel_neg y hy0).2
    obtain ⟨hb, hx1, ha'⟩ :=
      flag_decomp POW_2_381 x.im.val a1 (by norm_num [POW_2_381]) him_lt ha1le
    have hveq : fq2pow x 3 + b2 = y * y := by
      rw [fq2pow_eq, show (x : Fq2) ^ 3 = x * x * x from by ring]
      exact hcurve.symm
    have hvne : fq2pow x 3 + b2 ≠ 0 := by
      rw [hveq]
      exact mul_ne_zero hy0 hy0
    obtain ⟨y0, hy0some⟩ :=
      sqrt_complete (fq2pow x 3 + b2) hvne ⟨y, by rw [hveq]⟩
    simp only [decompress_G2, pow382_eq, pow383_eq]
    rw [hb, if_neg (by norm_num), hx1, val_cast_self, val_cast_self,
      show (⟨x.re, x.im⟩ : Fq2) = x from rfl, hy0some]
    simp only [decompress_G2_aux]
    obtain ⟨hsq', _⟩ := sqrt_sound _ _ hy0some
    have hroots : y0 = y ∨ y0 = -y := by
      have hfac : (y0 - y) * (y0 + y) = 0 := by
        have hyy : y0 * y0 = y * y := by rw [hsq', hveq]
        linear_combination hyy
      rcases mul_eq_zero.mp hfac with h1 | h1
      · exact Or.inl (sub_eq_zero.mp h1)
      · exact Or.inr (eq_neg_of_add_eq_zero_left h1)
    rw [pow382_eq, ha']
    have hyfin : (if (0 < y0.im.val ∧ y0.im.val * 2 / q ≠ a1) ∨
        (y0.im.val = 0 ∧ y0.re.val * 2 / q ≠ a1) then -y0 else y0) = y := by
      rcases hroots with rfl | rfl
      · rw [if_neg]
        rw [condsel, ← ha1]
        simp
      · have hcond : (0 < (-y).im.val ∧ (-y).im.val * 2 / q ≠ a1) ∨
            ((-y).im.val = 0 ∧ (-y).re.val * 2 / q ≠ a1) := by
          rw [condsel, (flagsel_neg y hy0).1, ← ha1]
          omega
        rw [if_pos hcond, neg_neg]
    rw [hyfin]
    rw [if_neg (not_not_intro (show onCurveG2 (.fin x y) from hcurve))]

/-!  ## Concrete points and inputs used by the claim witnesses  -/

/-- The standard BLS12-381 G1 generator (a point on `y² = x³ + 4`). -/
def g1gen : G1Point :=
  .fin
    (0x17f1d3a73197d7942695638c4fa9ac0fc3688c4f9774b905a14e3a3f171bac586c55e83ff97a1aeffb3af00adb22c6bb : ℕ)
    (0x08b3f481e3aaa0f1a09e30ed741d8ae4fcf5e095d5d00af600db18cb2c04b3edd03cc744a2888ae40caa232946c5e7e1 : ℕ)

/-- The standard BLS12-381 G2 generator (a point on `y² = x³ + 4(1+i)`). -/
def g2gen : G2Point :=
  .fin
    ⟨(0x024aa2b2f08f0a91260805272dc51051c6e47ad4fa403b02b4510b647ae3d1770bac0326a805bbefd48056c8c121bdb8 : ℕ),
     (0x13e02b6052719f607dacd3a088274f65596bd0d09920b61ab5da61bbdc7f5049334cf11213945d57e5ac7d055d042b7e : ℕ)⟩
    ⟨(0x0ce5d527727d6e118cc9cdc6da2e351aadfd9baa8cbdd3a76d429a695160d12c923ac9cc3baca289e193548608b82801 : ℕ),
     (0x0606c4a02ea734cc32acd2b02bc28b99cb3e287e85a763af267492ab572e99ab3f370d275cec1da1aaa9075ff05f79be : ℕ)⟩

theorem cflag_one (B xv a : ℕ) (hx : xv < B) (ha : a ≤ 1) :
    (xv + a * B + 4 * B) / (4 * B) = 1 := by
  have haB : a * B ≤ 1 * B := Nat.mul_le_mul_right B ha
  exact Nat.div_eq_of_lt_le (by omega) (by omega)

/-- `1 + i` is a quadratic non-residue in the extension field (Euler
criterion through the precomputed `w = (1+i)^((q²-1)/8)`). -/
theorem g_not_square : ¬ ∃ u : Fq2, u * u = (⟨1, 1⟩ : Fq2) := by
  rintro ⟨u, hu⟩
  have hu0 : u ≠ 0 := by
    intro h0
    rw [h0, zero_mul] at hu
    exact (by decide : (0 : Fq2) ≠ ⟨1, 1⟩) hu
  have h1 : (⟨1, 1⟩ : Fq2) ^ (FQ2_ORDER / 2) = 1 := by
    rw [← hu, ← pow_two, ← pow_mul,
      show 2 * (FQ2_ORDER / 2) = q ^ 2 - 1 from by decide]
    exact fq2_pow_order_eq_one u hu0
  have h2 : (⟨1, 1⟩ : Fq2) ^ (FQ2_ORDER / 2) =
      (⟨(0x6af0e0437ff400b6831e36d6bd17ffe48395dabc2d3435e77f76e17009241c5ee67992f72ec05f4c81084fbede3cc09 : ℕ),
        (0x135203e60180a68ee2e9c448d77a2cd91c3dedd930b1cf60ef396489f61eb45e304466cf3e67fa0af1ee7b04121bdea2 : ℕ)⟩ : Fq2) ^ 4 := by
    rw [show FQ2_ORDER / 2 = FQ2_ORDER / 8 * 4 from by decide, pow_mul, wround_eq]
  rw [h1] at h2
  exact (by decide : ¬ ((1 : Fq2) =
    (⟨(0x6af0e0437ff400b6831e36d6bd17ffe48395dabc2d3435e77f76e17009241c5ee67992f72ec05f4c81084fbede3cc09 : ℕ),
      (0x135203e60180a68ee2e9c448d77a2cd91c3dedd930b1cf60ef396489f61eb45e304466cf3e67fa0af1ee7b04121bdea2 : ℕ)⟩ : Fq2) ^ 4)) h2

/-- The square-root solver at the concrete residue `2i = (1+i)²`: the
candidate power is `w·(1+i)`, the check lands on `i` (table index 2), and
the tie-break picks `-(1+i) = (q-1) + (q-1)i`, the root with the larger
imaginary component. -/
theorem sqrt_two_i :
    modular_squareroot_in_FQ2 (⟨0, 2⟩ : Fq2) =
      some (⟨(0x1a0111ea397fe69a4b1ba7b6434bacd764774b84f38512bf6730d2a0f6b0f6241eabfffeb153ffffb9feffffffffaaaa : ℕ),
        (0x1a0111ea397fe69a4b1ba7b6434bacd764774b84f38512bf6730d2a0f6b0f6241eabfffeb153ffffb9feffffffffaaaa : ℕ)⟩ : Fq2) := by
  have hcand : fq2pow (⟨0, 2⟩ : Fq2) ((FQ2_ORDER + 8) / 16) =
      (⟨(0xd5e1c086ffe8016d063c6dad7a2fffc9072bb5785a686bcefeedc2e0124838bdccf325ee5d80be9902109f7dbc79812 : ℕ),
        (0 : ℕ)⟩ : Fq2) := by
    rw [fq2pow_eq, show (⟨0, 2⟩ : Fq2) = (⟨1, 1⟩ : Fq2) ^ 2 from by decide,
      ← pow_mul, show 2 * ((FQ2_ORDER + 8) / 16) = FQ2_ORDER / 8 + 1 from by decide,
      pow_succ, wround_eq]
    decide
  have hchk : Fq2.div (fq2pow (fq2pow (⟨0, 2⟩ : Fq2) ((FQ2_ORDER + 8) / 16)) 2) ⟨0, 2⟩
      = ⟨0, 1⟩ := by
    rw [hcand]
    decide
  have hmem : Fq2.div (fq2pow (fq2pow (⟨0, 2⟩ : Fq2) ((FQ2_ORDER + 8) / 16)) 2) ⟨0, 2⟩
      ∈ sliceStep2 EIGTH_ROOTS_OF_UNITY := by
    rw [hchk, table_lit]
    decide
  simp only [modular_squareroot_in_FQ2]
  rw [if_pos hmem, table_lit, hchk, hcand]
  decide

/-!  ## The claims  -/

/-- C1: for every valid curve point (including infinity) in either group,
decompressing the compression yields the point again: in G1
`decompress_G1 (compress_G1 p) = ok p`, and in G2 `compress_G2 p` succeeds
and decompressing its result gives back `ok p`. -/
theorem claim_C1 :
    (∀ p : G1Point, onCurveG1 p → decompress_G1 (compress_G1 p) = .ok p) ∧
    (∀ p : G2Point, onCurveG2 p →
      ∃ z, compress_G2 p = .ok z ∧ decompress_G2 z = .ok p) :=
  ⟨decompress_compress_G1, decompress_compress_G2⟩

/-- C1, instantiated at the standard generators of the two groups. -/
theorem claim_C1_witness :
    onCurveG1 g1gen ∧ onCurveG2 g2gen ∧
    decompress_G1 (compress_G1 g1gen) = .ok g1gen ∧
    ∃ z, compress_G2 g2gen = .ok z ∧ decompress_G2 z = .ok g2gen :=
  ⟨by decide, by decide, claim_C1.1 g1gen (by decide), claim_C1.2 g2gen (by decide)⟩

/-- C2 (counterexample): the all-zero 48-byte string decodes successfully —
to the point `(0, 2)` — but re-encoding that point produces the 48-byte
big-endian form of `2^383` (the `c_flag = 1` counterpart), not the original
zero bytes.  A successfully decoding 48-byte input need not be canonical. -/
theorem claim_C2_counterexample :
    (toBytesBE 48 0).length = 48 ∧
    pubkey_to_G1 (toBytesBE 48 0) = .ok (.fin 0 2) ∧
    G1_to_pubkey (.fin 0 2) ≠ toBytesBE 48 0 := by
  refine ⟨by decide, by decide, by decide⟩

theorem except_ok_inj (a b : G1Point)
    (h : Except.ok a = (Except.ok b : Except String G1Point)) : a = b := by
  injection h

theorem G1_to_pubkey_congr (a b : G1Point) (h : a = b) :
    G1_to_pubkey b = G1_to_pubkey a :=
  congrArg G1_to_pubkey h.symm

/-- C2 (amended): canonicity holds on the encoder's image — for every
on-curve point the canonical 48 bytes decode back to the point, and the
point those bytes decode to re-encodes to exactly the same bytes. -/
theorem claim_C2_amended (p : G1Point) (h : onCurveG1 p) :
    pubkey_to_G1 (G1_to_pubkey p) = .ok p ∧
    ∀ p' : G1Point, pubkey_to_G1 (G1_to_pubkey p) = .ok p' →
      G1_to_pubkey p' = G1_to_pubkey p := by
  refine ⟨pubkey_roundtrip p h, fun p' hp' => ?_⟩
  rw [pubkey_roundtrip p h] at hp'
  exact G1_to_pubkey_congr p p' (except_ok_inj p p' hp')

/-- C2 (amended), instantiated at the G1 generator. -/
theorem claim_C2_witness :
    onCurveG1 g1gen ∧
    (pubkey_to_G1 (G1_to_pubkey g1gen) = .ok g1gen ∧
      ∀ p' : G1Point, pubkey_to_G1 (G1_to_pubkey g1gen) = .ok p' →
        G1_to_pubkey p' = G1_to_pubkey g1gen) :=
  ⟨by decide, claim_C2_amended g1gen (by decide)⟩

/-- C3 (counterexample): the empty byte string — length 0, not 48 — raises
no structural length error in `pubkey_to_G1`: it decodes successfully, to
the point `(0, 2)`. -/
theorem claim_C3_counterexample :
    ([] : List ℕ).length ≠ 48 ∧ pubkey_to_G1 [] = .ok (.fin 0 2) := by
  refine ⟨by decide, by decide⟩

/-- C3 (amended): neither byte-level decoder checks its input's length —
`pubkey_to_G1` is exactly big-endian decoding followed by `decompress_G1`,
and `signature_to_G2` exactly splits at byte 48 (Python slicing, however
long the input is) and decompresses — so the only errors either can raise
are the point codec's own, propagated unchanged, and wrong-length inputs
can decode successfully. -/
theorem claim_C3_amended :
    (∀ bs : List ℕ, pubkey_to_G1 bs = decompress_G1 (big_endian_to_int bs)) ∧
    (∀ bs : List ℕ, signature_to_G2 bs =
      decompress_G2 (big_endian_to_int (bs.take 48), big_endian_to_int (bs.drop 48))) ∧
    ∃ bs : List ℕ, bs.length ≠ 48 ∧ ∃ p, pubkey_to_G1 bs = .ok p := by
  refine ⟨fun _ => rfl, fun _ => rfl, [], by decide, .fin 0 2, by decide⟩

/-- C4: whenever the square-root solver returns a root `y` for `v`, then
`y · y = v`, `y` is the canonical choice between the two roots `y` and
`-y` — the larger imaginary component, ties broken by the larger real
component — and the solver is deterministic: equal inputs give identical
outputs. -/
theorem claim_C4 (v y : Fq2) (h : modular_squareroot_in_FQ2 v = some y) :
    y * y = v ∧
    ((-y).im.val < y.im.val ∨
      (y.im.val = (-y).im.val ∧ (-y).re.val < y.re.val)) ∧
    ∀ v' : Fq2, v' = v →
      modular_squareroot_in_FQ2 v' = modular_squareroot_in_FQ2 v := by
  obtain ⟨h1, h2⟩ := sqrt_sound v y h
  exact ⟨h1, h2, fun v' hv' => by rw [hv']⟩

/-- C4, instantiated at the residue `2i` whose computed root is
`-(1+i) = (q-1) + (q-1)i`. -/
theorem claim_C4_witness :
    modular_squareroot_in_FQ2 (⟨0, 2⟩ : Fq2) =
      some (⟨(0x1a0111ea397fe69a4b1ba7b6434bacd764774b84f38512bf6730d2a0f6b0f6241eabfffeb153ffffb9feffffffffaaaa : ℕ),
        (0x1a0111ea397fe69a4b1ba7b6434bacd764774b84f38512bf6730d2a0f6b0f6241eabfffeb153ffffb9feffffffffaaaa : ℕ)⟩ : Fq2) ∧
    ((⟨(0x1a0111ea397fe69a4b1ba7b6434bacd764774b84f38512bf6730d2a0f6b0f6241eabfffeb153ffffb9feffffffffaaaa : ℕ),
        (0x1a0111ea397fe69a4b1ba7b6434bacd764774b84f38512bf6730d2a0f6b0f6241eabfffeb153ffffb9feffffffffaaaa : ℕ)⟩ : Fq2) *
      (⟨(0x1a0111ea397fe69a4b1ba7b6434bacd764774b84f38512bf6730d2a0f6b0f6241eabfffeb153ffffb9feffffffffaaaa : ℕ),
        (0x1a0111ea397fe69a4b1ba7b6434bacd764774b84f38512bf6730d2a0f6b0f6241eabfffeb153ffffb9feffffffffaaaa : ℕ)⟩ : Fq2) = ⟨0, 2⟩ ∧
      ((-(⟨(0x1a0111ea397fe69a4b1ba7b6434bacd764774b84f38512bf6730d2a0f6b0f6241eabfffeb153ffffb9feffffffffaaaa : ℕ),
          (0x1a0111ea397fe69a4b1ba7b6434bacd764774b84f38512bf6730d2a0f6b0f6241eabfffeb153ffffb9feffffffffaaaa : ℕ)⟩ : Fq2)).im.val <
        (⟨(0x1a0111ea397fe69a4b1ba7b6434bacd764774b84f38512bf6730d2a0f6b0f6241eabfffeb153ffffb9feffffffffaaaa : ℕ),
          (0x1a0111ea397fe69a4b1ba7b6434bacd764774b84f38512bf6730d2a0f6b0f6241eabfffeb153ffffb9feffffffffaaaa : ℕ)⟩ : Fq2).im.val ∨
        ((⟨(0x1a0111ea397fe69a4b1ba7b6434bacd764774b84f38512bf6730d2a0f6b0f6241eabfffeb153ffffb9feffffffffaaaa : ℕ),
          (0x1a0111ea397fe69a4b1ba7b6434bacd764774b84f38512bf6730d2a0f6b0f6241eabfffeb153ffffb9feffffffffaaaa : ℕ)⟩ : Fq2).im.val =
          (-(⟨(0x1a0111ea397fe69a4b1ba7b6434bacd764774b84f38512bf6730d2a0f6b0f6241eabfffeb153ffffb9feffffffffaaaa : ℕ),
            (0x1a0111ea397fe69a4b1ba7b6434bacd764774b84f38512bf6730d2a0f6b0f6241eabfffeb153ffffb9feffffffffaaaa : ℕ)⟩ : Fq2)).im.val ∧
          (-(⟨(0x1a0111ea397fe69a4b1ba7b6434bacd764774b84f38512bf6730d2a0f6b0f6241eabfffeb153ffffb9feffffffffaaaa : ℕ),
            (0x1a0111ea397fe69a4b1ba7b6434bacd764774b84f38512bf6730d2a0f6b0f6241eabfffeb153ffffb9feffffffffaaaa : ℕ)⟩ : Fq2)).re.val <
          (⟨(0x1a0111ea397fe69a4b1ba7b6434bacd764774b84f38512bf6730d2a0f6b0f6241eabfffeb153ffffb9feffffffffaaaa : ℕ),
            (0x1a0111ea397fe69a4b1ba7b6434bacd764774b84f38512bf6730d2a0f6b0f6241eabfffeb153ffffb9feffffffffaaaa : ℕ)⟩ : Fq2).re.val)) ∧
      ∀ v' : Fq2, v' = ⟨0, 2⟩ →
        modular_squareroot_in_FQ2 v' = modular_squareroot_in_FQ2 ⟨0, 2⟩) :=
  ⟨sqrt_two_i, claim_C4 _ _ sqrt_two_i⟩

/-- C5: the solver returns the no-root signal exactly when the Euler-style
check value `candidate² / v` (with `candidate = v^((FQ2_ORDER+8)/16)`) is
not among the even-indexed entries of the eighth-roots-of-unity table; in
particular every non-residue input is answered with no root. -/
theorem claim_C5 (v : Fq2) :
    (modular_squareroot_in_FQ2 v = none ↔
      Fq2.div (fq2pow (fq2pow v ((FQ2_ORDER + 8) / 16)) 2) v ∉
        sliceStep2 EIGTH_ROOTS_OF_UNITY) ∧
    ((¬ ∃ u : Fq2, u * u = v) → modular_squareroot_in_FQ2 v = none) := by
  constructor
  · constructor
    · intro hnone hmem
      simp only [modular_squareroot_in_FQ2] at hnone
      rw [if_pos hmem] at hnone
      rcases ite_eq_iff.mp hnone with ⟨-, h⟩ | ⟨-, h⟩ <;> exact Option.noConfusion h
    · intro hnmem
      simp only [modular_squareroot_in_FQ2]
      rw [if_neg hnmem]
  · intro hnr
    cases hopt : modular_squareroot_in_FQ2 v with
    | none => rfl
    | some y =>
      obtain ⟨hsq, -⟩ := sqrt_sound v y hopt
      exact absurd ⟨y, hsq⟩ hnr

/-- C5, instantiated at the non-residue `1 + i`. -/
theorem claim_C5_witness :
    (¬ ∃ u : Fq2, u * u = (⟨1, 1⟩ : Fq2)) ∧
    modular_squareroot_in_FQ2 (⟨1, 1⟩ : Fq2) = none :=
  ⟨g_not_square, (claim_C5 ⟨1, 1⟩).2 g_not_square⟩

/-- C6: `compress_G1` maps infinity to exactly `2^383 + 2^382`, and a
finite point `(x, y)` to `x + a_flag·2^381 + 2^383` with
`a_flag = ⌊2y/q⌋`; hence every finite-point compression has `c_flag = 1`
and `b_flag = 0`. -/
theorem claim_C6 :
    compress_G1 .inf = 2 ^ 383 + 2 ^ 382 ∧
    ∀ x y : ZMod q,
      compress_G1 (.fin x y) = x.val + 2 * y.val / q * 2 ^ 381 + 2 ^ 383 ∧
      compress_G1 (.fin x y) / 2 ^ 383 = 1 ∧
      compress_G1 (.fin x y) % 2 ^ 383 / 2 ^ 382 = 0 := by
  refine ⟨rfl, fun x y => ?_⟩
  have hxlt : x.val < POW_2_381 := lt_trans (ZMod.val_lt x) q_lt_pow381
  have ha_le : y.val * 2 / q ≤ 1 := by
    have hYlt : y.val < q := ZMod.val_lt y
    have : y.val * 2 / q < 2 := (Nat.div_lt_iff_lt_mul q_pos).mpr (by omega)
    omega
  have h383 : (2 : ℕ) ^ 383 = 4 * POW_2_381 := by norm_num [POW_2_381]
  have h382 : (2 : ℕ) ^ 382 = 2 * POW_2_381 := by norm_num [POW_2_381]
  obtain ⟨hb, -, -⟩ := flag_decomp POW_2_381 x.val (y.val * 2 / q)
    (by norm_num [POW_2_381]) hxlt ha_le
  refine ⟨?_, ?_, ?_⟩
  · show x.val + y.val * 2 / q * POW_2_381 + POW_2_383 =
      x.val + 2 * y.val / q * 2 ^ 381 + 2 ^ 383
    rw [mul_comm 2 y.val]
    rfl
  · show (x.val + y.val * 2 / q * POW_2_381 + POW_2_383) / 2 ^ 383 = 1
    rw [h383, pow383_eq]
    exact cflag_one POW_2_381 x.val _ hxlt ha_le
  · show (x.val + y.val * 2 / q * POW_2_381 + POW_2_383) % 2 ^ 383 / 2 ^ 382 = 0
    rw [h383, h382, pow383_eq]
    exact hb

/-- C7: any compressed G2 pair whose first half has `b_flag1 = 1` decodes
to the identity, whatever the rest of `z1` and all of `z2` contain. -/
theorem claim_C7 (z1 z2 : ℕ) (h : z1 % 2 ^ 383 / 2 ^ 382 = 1) :
    decompress_G2 (z1, z2) = .ok .inf := by
  have h' : z1 % POW_2_383 / POW_2_382 = 1 := h
  simp only [decompress_G2]
  rw [if_pos h']

/-- C7, instantiated with non-zero garbage in the low bits of `z1` and in
`z2`. -/
theorem claim_C7_witness :
    (2 ^ 383 + 2 ^ 382 + 12345) % 2 ^ 383 / 2 ^ 382 = 1 ∧
    decompress_G2 (2 ^ 383 + 2 ^ 382 + 12345, 999) = .ok .inf :=
  ⟨by decide, claim_C7 _ _ (by decide)⟩

/-- C8: `compress_G2` rejects every off-curve input with the "not on
curve" error, while `compress_G1` never raises: it is total, returning the
flag formula on every finite input (on the curve or not) and the infinity
word on infinity. -/
theorem claim_C8 :
    (∀ p : G2Point, ¬ onCurveG2 p →
      compress_G2 p = .error "The given point is not on the twisted curve over FQ**2") ∧
    compress_G1 .inf = POW_2_383 + POW_2_382 ∧
    ∀ x y : ZMod q,
      compress_G1 (.fin x y) = x.val + y.val * 2 / q * POW_2_381 + POW_2_383 := by
  refine ⟨fun p hp => ?_, rfl, fun x y => rfl⟩
  simp only [compress_G2]
  rw [if_pos hp]

/-- C8, instantiated at the off-curve point `(1, 1)` (coordinates `1+0i`):
`1² ≠ 1³ + (4+4i)`. -/
theorem claim_C8_witness :
    ¬ onCurveG2 (.fin ⟨1, 0⟩ ⟨1, 0⟩) ∧
    compress_G2 (.fin ⟨1, 0⟩ ⟨1, 0⟩) =
      .error "The given point is not on the twisted curve over FQ**2" :=
  ⟨by decide, claim_C8.1 _ (by decide)⟩

/-- C9: the hash-to-curve front end is structurally the spec's pipeline —
two `hash_to_base` values at counters 0 and 1, whose coefficients expand
with info `"H2C" ‖ I2OSP(ctr,1) ‖ I2OSP(i,1)` for `i ∈ {1, 2}`, each
mapped by simplified SWU first and the isogeny second, added, then
cofactor-cleared — for every external-collaborator instantiation and every
message. -/
theorem claim_C9 {P : Type} (E : HashExt P) (m : List ℕ) :
    hash_to_G2 E m = hashToG2Spec E m := rfl

/-- C10: `decompress_G1` never inspects the `c_flag` bit: its value at `z`
equals its value at `z mod 2^383`, and adding the `c_flag` bit never
changes the result, so a `c_flag = 0` encoding decodes exactly like its
`c_flag = 1` counterpart. -/
theorem claim_C10 (z : ℕ) :
    decompress_G1 (z % 2 ^ 383) = decompress_G1 z ∧
    decompress_G1 (z + 2 ^ 383) = decompress_G1 z := by
  have main : ∀ w : ℕ, decompress_G1 (w % 2 ^ 383) = decompress_G1 w := by
    intro w
    simp only [decompress_G1]
    have e1 : w % 2 ^ 383 % POW_2_383 = w % POW_2_383 := by
      simp only [POW_2_383]
      exact Nat.mod_mod_of_dvd w dvd_rfl
    have e2 : w % 2 ^ 383 % POW_2_381 = w % POW_2_381 := by
      simp only [POW_2_381, POW_2_383]
      exact Nat.mod_mod_of_dvd w (pow_dvd_pow 2 (by norm_num))
    have e3 : w % 2 ^ 383 % POW_2_382 = w % POW_2_382 := by
      simp only [POW_2_382, POW_2_383]
      exact Nat.mod_mod_of_dvd w (pow_dvd_pow 2 (by norm_num))
    rw [e1, e2, e3]
  refine ⟨main z, ?_⟩
  have h1 := main (z + 2 ^ 383)
  have h2 : (z + 2 ^ 383) % 2 ^ 383 = z % 2 ^ 383 := Nat.add_mod_right z (2 ^ 383)
  rw [h2, main z] at h1
  exact h1.symm

end BLSUtils
